import Mathlib

/-!
Verification of the Lumos-Trade market-data / order-execution core.

Shallow embedding of:
  * server/exchange.ts   — order execution engine (getMarketPrice,
    createMarketOrder, createLimitOrder, executeTradeSignal) and the
    WebSocket feed module (subscribeToMarket, unsubscribeFromMarket,
    connectToBinanceWebSocket, startSimulationForMarket, simulation ticks);
  * client/src/lib/webSocketService.ts — the client-side WebSocketService
    (attemptReconnect, fallbackToSimulation, startSimulation, subscribe,
    unsubscribe, close).

Prices and amounts are rationals (JS numbers, no float rounding modelled);
Math.random() is an explicit stream of rationals in [0,1); Date.now() is an
explicit parameter; exchange-adapter calls are oracles returning
Except String _ (an `error` models a thrown exception, caught exactly where
the source has a try/catch).  The source's `datetime` field (an ISO
rendering of `timestamp`) and the textual log messages are not modelled.
-/

/-- Does the first character list start with the second (used for substring
tests; models JavaScript String.prototype.includes). -/
def chLead : List Char → List Char → Bool
  | _, [] => true
  | [], _ :: _ => false
  | a :: as, b :: bs => a == b && chLead as bs

/-- Does the first character list contain the second as a contiguous
subsequence. -/
def chHas : List Char → List Char → Bool
  | [], pat => pat.isEmpty
  | a :: as, pat => chLead (a :: as) pat || chHas as pat

/-- Model of JavaScript `s.includes(pat)`. -/
def strHas (s pat : String) : Bool := chHas s.data pat.data

/-- Model of JavaScript `s.toLowerCase()` (ASCII suffices here; defined
on the character list so that it evaluates by reduction). -/
def lowerStr (s : String) : String := ⟨s.data.map Char.toLower⟩

/-- JavaScript truthiness of an optional numeric parameter: `undefined`
and `0` are falsy (the source writes `if (stopLoss)`). -/
def truthy (o : Option ℚ) : Bool :=
  match o with
  | none => false
  | some v => v != 0

/-- SimplifiedOrder from server/exchange.ts (datetime omitted: it is a
rendering of `timestamp`; the simulated fee object is kept as its numeric
cost, `feeCost`). -/
structure SimplifiedOrder where
  id : String
  status : String
  symbol : String
  otype : String
  side : String
  price : ℚ
  amount : ℚ
  cost : ℚ
  filled : ℚ
  remaining : ℚ
  timestamp : ℕ
  feeCost : ℚ
deriving DecidableEq, Repr

/-- Environment of the execution engine: the Math.random() stream, the
result of each successive fetchTicker call (`none` = the call throws, e.g.
endpoint unreachable), and Date.now(). -/
structure ExeEnv where
  rand : ℕ → ℚ
  tick : ℕ → Option ℚ
  now : ℕ

/-- Cursor state: how many random draws, ticker calls, real market-order
calls and real limit-order calls have happened so far. -/
structure ExeSt where
  r : ℕ := 0
  t : ℕ := 0
  mc : ℕ := 0
  lc : ℕ := 0
deriving DecidableEq, Repr

/-- The real (ccxt) exchange adapter as an oracle.  `hasKeys` models the
presence of BINANCE_API_KEY/SECRET; each order call is indexed by its call
count so that successive calls may differ; `Except.error` models a thrown
exception.  Adapter responses are already in SimplifiedOrder form
(normalizeOrder of the source is the identity on well-formed responses). -/
structure RealAdapter where
  hasKeys : Bool
  loadMarkets : Except String Unit
  mkMarket : ℕ → String → String → ℚ → Except String SimplifiedOrder
  mkLimit : ℕ → String → String → ℚ → ℚ → Except String SimplifiedOrder

/-- Simulated price synthesis of getMarketPrice's fallback branch
(exchange.ts lines 102-121): a per-asset base plus a bounded random
perturbation. -/
def simPrice (symbol : String) (r : ℚ) : ℚ :=
  if strHas symbol "BTC" then 32500 + (r * 1000 - 500)
  else if strHas symbol "ETH" then 1750 + (r * 50 - 25)
  else if strHas symbol "SOL" then 125 + (r * 10 - 5)
  else if strHas symbol "XRP" then 1/2 + (r * (1/20) - 1/40)
  else 100 + (r * 10 - 5)

/-- getMarketPrice (exchange.ts lines 88-132): tries the public
fetchTicker call regardless of credentials; on failure synthesizes a
simulated price.  Never throws. -/
def getMarketPrice (env : ExeEnv) (st : ExeSt) (_symbol : String) : ℚ × ExeSt :=
  match env.tick st.t with
  | some p => (p, {st with t := st.t + 1})
  | none => (simPrice _symbol (env.rand st.r), {st with t := st.t + 1, r := st.r + 1})

/-- Simulated order id: sim_TIMESTAMP_FLOOR(rand*1000)  (consumes one
random draw). -/
def freshOrderId (env : ExeEnv) (st : ExeSt) : String × ExeSt :=
  ("sim_" ++ toString env.now ++ "_" ++ toString (env.rand st.r * 1000).floor,
   {st with r := st.r + 1})

/-- The simulated market order (exchange.ts lines 154-181): fills
immediately at the current getMarketPrice, status closed, 0.1% fee. -/
def simMarketOrder (env : ExeEnv) (st : ExeSt) (symbol side : String) (amount : ℚ) :
    SimplifiedOrder × ExeSt :=
  let p := getMarketPrice env st symbol
  let cost := p.1 * amount
  let oid := freshOrderId env p.2
  ({ id := oid.1, status := "closed", symbol := symbol, otype := "market", side := side,
     price := p.1, amount := amount, cost := cost, filled := amount, remaining := 0,
     timestamp := env.now, feeCost := cost * (1/1000) }, oid.2)

/-- createMarketOrder (exchange.ts lines 135-186): tries the real adapter
when keys are present; any adapter failure is caught and the simulated
order is produced instead.  Never throws. -/
def createMarketOrder (A : RealAdapter) (env : ExeEnv) (st : ExeSt)
    (symbol side : String) (amount : ℚ) : SimplifiedOrder × ExeSt :=
  if A.hasKeys then
    match A.loadMarkets with
    | Except.error _ => simMarketOrder env st symbol side amount
    | Except.ok _ =>
      match A.mkMarket st.mc symbol side amount with
      | Except.ok o => (o, {st with mc := st.mc + 1})
      | Except.error _ => simMarketOrder env {st with mc := st.mc + 1} symbol side amount
  else simMarketOrder env st symbol side amount

/-- The simulated limit order (exchange.ts lines 209-235): created open at
the requested price, nothing filled, no fee. -/
def simLimitOrder (env : ExeEnv) (st : ExeSt) (symbol side : String) (amount price : ℚ) :
    SimplifiedOrder × ExeSt :=
  let oid := freshOrderId env st
  ({ id := oid.1, status := "open", symbol := symbol, otype := "limit", side := side,
     price := price, amount := amount, cost := price * amount, filled := 0,
     remaining := amount, timestamp := env.now, feeCost := 0 }, oid.2)

/-- createLimitOrder (exchange.ts lines 189-240); like createMarketOrder,
never throws. -/
def createLimitOrder (A : RealAdapter) (env : ExeEnv) (st : ExeSt)
    (symbol side : String) (amount price : ℚ) : SimplifiedOrder × ExeSt :=
  if A.hasKeys then
    match A.loadMarkets with
    | Except.error _ => simLimitOrder env st symbol side amount price
    | Except.ok _ =>
      match A.mkLimit st.lc symbol side amount price with
      | Except.ok o => (o, {st with lc := st.lc + 1})
      | Except.error _ => simLimitOrder env {st with lc := st.lc + 1} symbol side amount price
  else simLimitOrder env st symbol side amount price

/-- Result of executeTradeSignal. -/
structure SignalResult where
  order : SimplifiedOrder
  stopLossOrder : Option SimplifiedOrder
  takeProfitOrder : Option SimplifiedOrder
deriving DecidableEq, Repr

/-- Opposite side for the dependent orders (`signal === 'BUY' ? 'sell' : 'buy'`). -/
def oppositeAction (signal : String) : String :=
  if signal = "BUY" then "sell" else "buy"

/-- Stop-loss price: entry * (1 - pct/100) for a BUY, * (1 + pct/100) otherwise. -/
def stopLossPrice (signal : String) (cp sl : ℚ) : ℚ :=
  if signal = "BUY" then cp * (1 - sl / 100) else cp * (1 + sl / 100)

/-- Take-profit price: entry * (1 + pct/100) for a BUY, * (1 - pct/100) otherwise. -/
def takeProfitPrice (signal : String) (cp tp : ℚ) : ℚ :=
  if signal = "BUY" then cp * (1 + tp / 100) else cp * (1 - tp / 100)

/-- The simulation branch of executeTradeSignal (exchange.ts lines
488-535), reached when there are no keys or when anything in the real
branch threw.  Note: the reference price for SL/TP is a fresh
getMarketPrice call, and the main order's fill price comes from a second,
independent getMarketPrice call inside createMarketOrder. -/
def executeSignalSim (A : RealAdapter) (env : ExeEnv) (st : ExeSt)
    (symbol signal : String) (amount : ℚ) (stopLoss takeProfit : Option ℚ) :
    SignalResult × ExeSt :=
  let cp := getMarketPrice env st symbol
  let mo := createMarketOrder A env cp.2 symbol (lowerStr signal) amount
  let slo : Option SimplifiedOrder × ExeSt :=
    if truthy stopLoss then
      let o := createLimitOrder A env mo.2 symbol (oppositeAction signal) amount
        (stopLossPrice signal cp.1 (stopLoss.getD 0))
      (some o.1, o.2)
    else (none, mo.2)
  let tpo : Option SimplifiedOrder × ExeSt :=
    if truthy takeProfit then
      let o := createLimitOrder A env slo.2 symbol (oppositeAction signal) amount
        (takeProfitPrice signal cp.1 (takeProfit.getD 0))
      (some o.1, o.2)
    else (none, slo.2)
  ({ order := mo.1, stopLossOrder := slo.1, takeProfitOrder := tpo.1 }, tpo.2)

/-- executeTradeSignal (exchange.ts lines 417-557).  The whole real-branch
body sits inside one try whose catch falls through to the simulation
branch, so a throw at ANY point of the real branch (loadMarkets, the
primary market order, either dependent limit order) restarts execution on
the simulated path with whatever adapter call counts were already
consumed.  The outer catch (lines 536-556, returning an order with status
"error") is reachable only if the simulation branch itself throws, which
none of its operations can, so it does not appear in the model. -/
def executeTradeSignal (A : RealAdapter) (env : ExeEnv) (st : ExeSt)
    (symbol signal : String) (amount : ℚ) (stopLoss takeProfit : Option ℚ) :
    SignalResult × ExeSt :=
  if A.hasKeys then
    match A.loadMarkets with
    | Except.error _ => executeSignalSim A env st symbol signal amount stopLoss takeProfit
    | Except.ok _ =>
      match A.mkMarket st.mc symbol (lowerStr signal) amount with
      | Except.error _ =>
        executeSignalSim A env {st with mc := st.mc + 1} symbol signal amount stopLoss takeProfit
      | Except.ok mo =>
        let st1 : ExeSt := {st with mc := st.mc + 1}
        if mo.status = "closed" then
          -- currentPrice = mainOrder.price || (await getMarketPrice(symbol)).price
          let cps : ℚ × ExeSt :=
            if mo.price ≠ 0 then (mo.price, st1) else getMarketPrice env st1 symbol
          if truthy stopLoss then
            match A.mkLimit cps.2.lc symbol (oppositeAction signal) amount
                (stopLossPrice signal cps.1 (stopLoss.getD 0)) with
            | Except.error _ =>
              executeSignalSim A env {cps.2 with lc := cps.2.lc + 1}
                symbol signal amount stopLoss takeProfit
            | Except.ok slo =>
              let st2 : ExeSt := {cps.2 with lc := cps.2.lc + 1}
              if truthy takeProfit then
                match A.mkLimit st2.lc symbol (oppositeAction signal) amount
                    (takeProfitPrice signal cps.1 (takeProfit.getD 0)) with
                | Except.error _ =>
                  executeSignalSim A env {st2 with lc := st2.lc + 1}
                    symbol signal amount stopLoss takeProfit
                | Except.ok tpo =>
                  ({ order := mo, stopLossOrder := some slo, takeProfitOrder := some tpo },
                   {st2 with lc := st2.lc + 1})
              else ({ order := mo, stopLossOrder := some slo, takeProfitOrder := none }, st2)
          else
            if truthy takeProfit then
              match A.mkLimit cps.2.lc symbol (oppositeAction signal) amount
                  (takeProfitPrice signal cps.1 (takeProfit.getD 0)) with
              | Except.error _ =>
                executeSignalSim A env {cps.2 with lc := cps.2.lc + 1}
                  symbol signal amount stopLoss takeProfit
              | Except.ok tpo =>
                ({ order := mo, stopLossOrder := none, takeProfitOrder := some tpo },
                 {cps.2 with lc := cps.2.lc + 1})
            else ({ order := mo, stopLossOrder := none, takeProfitOrder := none }, cps.2)
        else ({ order := mo, stopLossOrder := none, takeProfitOrder := none }, st1)
  else executeSignalSim A env st symbol signal amount stopLoss takeProfit

/-- OHLCV candle (field names opn/hi/lo/cls mirror open/high/low/close of
the source; `open` is a Lean keyword).  `time` is rational because the
client-side generator emits Date.now()/1000 without flooring. -/
structure Candle where
  time : ℚ
  opn : ℚ
  hi : ℚ
  lo : ℚ
  cls : ℚ
  vol : ℚ
  complete : Bool
deriving DecidableEq, Repr

/-- The candle well-formedness invariant of the spec. -/
def candleInv (c : Candle) : Prop :=
  c.lo ≤ min c.opn c.cls ∧ max c.opn c.cls ≤ c.hi

instance (c : Candle) : Decidable (candleInv c) := by
  unfold candleInv; infer_instance

/-- Base price of the server-side simulation (exchange.ts line 840). -/
def srvBasePrice (market : String) : ℚ :=
  if strHas market "BTC" then 45000 else if strHas market "ETH" then 2800 else 100

/-- Initial candle of startSimulationForMarket (exchange.ts lines 841-849);
r is the Math.random() draw for the initial volume. -/
def srvInitCandle (market : String) (t0 : ℚ) (r : ℚ) : Candle :=
  let b := srvBasePrice market
  { time := t0, opn := b, hi := b * (201/200), lo := b * (199/200), cls := b,
    vol := 100 + r * 900, complete := false }

/-- One tick of the server-side simulation interval (exchange.ts lines
855-882).  `boundary` is `secondsElapsed === 0`; r1 is the price-change
draw, r2 the volume draw (both unused on a minute boundary). -/
def srvStep (c : Candle) (boundary : Bool) (now : ℚ) (r1 r2 : ℚ) : Candle :=
  if boundary then
    { time := now, opn := c.cls, hi := c.cls, lo := c.cls, cls := c.cls,
      vol := 10, complete := false }
  else
    let priceChange := (r1 - 1/2) * c.opn * (2/1000)
    let cls' := c.cls + priceChange
    { time := now, opn := c.opn, hi := max c.hi cls', lo := min c.lo cls',
      cls := cls', vol := c.vol + 10 + r2 * 90, complete := c.complete }

/-- The n-th candle broadcast by the server-side simulation for a market:
index 0 is the initial candle; each later broadcast is one interval tick.
`rnd` is the Math.random() stream (draw 0 for the initial volume, draws
2n+1, 2n+2 for tick n), `bdry n` tells whether tick n fell on a minute
boundary, `tms n` is the clock at emission n. -/
def srvCandle (market : String) (rnd : ℕ → ℚ) (bdry : ℕ → Bool) (tms : ℕ → ℚ) :
    ℕ → Candle
  | 0 => srvInitCandle market (tms 0) (rnd 0)
  | n + 1 =>
    srvStep (srvCandle market rnd bdry tms n) (bdry n) (tms (n + 1))
      (rnd (2 * n + 1)) (rnd (2 * n + 2))

/-- Base price of the client-side simulation (webSocketService.ts lines
176-194), keyed on the asset before the slash. -/
def cliBasePrice (market : String) : ℚ :=
  let base : String := ⟨market.data.takeWhile (fun ch => ch ≠ '/')⟩
  if base = "BTC" then 43500
  else if base = "ETH" then 2300
  else if base = "SOL" then 110
  else if base = "BNB" then 350
  else 100

/-- The evolving price of the client-side simulation: every tick multiplies
the running base price by (1 + (rand - 0.5) * 0.004) (webSocketService.ts
lines 197-200).  Tick n consumes draws 6n .. 6n+5 of the stream. -/
def cliPrice (market : String) (rnd : ℕ → ℚ) : ℕ → ℚ
  | 0 => cliBasePrice market * (1 + (rnd 0 - 1/2) * (4/1000))
  | n + 1 => cliPrice market rnd n * (1 + (rnd (6 * (n + 1)) - 1/2) * (4/1000))

/-- The n-th candle emitted by the client-side simulation
(webSocketService.ts lines 202-212): open, high, low are independent
perturbations of the new price, close is the new price itself. -/
def cliCandle (market : String) (rnd : ℕ → ℚ) (tms : ℕ → ℚ) (n : ℕ) : Candle :=
  let p := cliPrice market rnd n
  { time := tms n,
    opn := p * (1 - rnd (6 * n + 1) * (1/1000)),
    hi := p * (1 + rnd (6 * n + 2) * (1/1000)),
    lo := p * (1 - rnd (6 * n + 3) * (1/1000)),
    cls := p,
    vol := rnd (6 * n + 4) * 10,
    complete := decide (rnd (6 * n + 5) > 4/5) }

/-- A Math.random() stream is valid when every draw lies in [0, 1). -/
def validRnd (rnd : ℕ → ℚ) : Prop := ∀ n, 0 ≤ rnd n ∧ rnd n < 1

/-! ### Association-list helpers (JS Map / Set with unique keys) -/

/-- Map lookup. -/
def alGet [DecidableEq α] : List (α × β) → α → Option β
  | [], _ => none
  | (k0, v0) :: rest, k => if k0 = k then some v0 else alGet rest k

/-- Map set (replace or add). -/
def alSet [DecidableEq α] : List (α × β) → α → β → List (α × β)
  | [], k, v => [(k, v)]
  | (k0, v0) :: rest, k, v =>
    if k0 = k then (k, v) :: rest else (k0, v0) :: alSet rest k v

/-- Map delete. -/
def alDel [DecidableEq α] : List (α × β) → α → List (α × β)
  | [], _ => []
  | (k0, v0) :: rest, k => if k0 = k then alDel rest k else (k0, v0) :: alDel rest k

/-- Set add. -/
def insertIfAbsent [DecidableEq α] (l : List α) (a : α) : List α :=
  if a ∈ l then l else a :: l

/-- Set delete. -/
def eraseAllL [DecidableEq α] : List α → α → List α
  | [], _ => []
  | a :: as, b => if a = b then eraseAllL as b else a :: eraseAllL as b

/-! ### Server-side feed module (second document of server/exchange.ts)

Clients are handles (ℕ), their WebSocket sockets to Binance are ids (ℕ).
Observable actions are recorded in a newest-first log. -/

/-- Observable feed-module actions.  `realStart` = a new WebSocket to
Binance is created; `simStart` = a simulation interval is installed;
`teardown` = an upstream socket is closed by unsubscribe; `simStop` = a
simulation interval clears itself; `notifySim` / `deliver` = a message
pushed to one subscribed client. -/
inductive LogEvt where
  | realStart (m : String) (sid : ℕ)
  | simStart (m : String)
  | teardown (m : String)
  | simStop (m : String)
  | notifySim (h : ℕ) (m : String)
  | deliver (h : ℕ) (m : String)
deriving DecidableEq, Repr

/-- State of the server feed module: the `clients` map (handle → set of
subscribed markets), `marketConnections`, `connectionAttempts`,
the keys of `simulationIntervals`, a fresh-socket counter, and the log. -/
structure SrvState where
  clients : List (ℕ × List String)
  conns : List (String × ℕ)
  attempts : List (String × ℕ)
  sims : List String
  nextSock : ℕ
  log : List LogEvt
deriving DecidableEq, Repr

def MAX_ATTEMPTS : ℕ := 1

/-- Does any connected client currently subscribe to `m`. -/
def hasSubscriber (s : SrvState) (m : String) : Bool :=
  s.clients.any fun hc => hc.2.contains m

/-- Handles of the clients subscribed to `m` (iteration order of the map). -/
def subscribersOf (s : SrvState) (m : String) : List ℕ :=
  (s.clients.filter fun hc => hc.2.contains m).map fun hc => hc.1

/-- startSimulationForMarket (exchange.ts lines 818-903): idempotence
guard on simulationIntervals, then simulation_started notification to all
subscribers, initial candle broadcast, and interval installation. -/
def startSimulationForMarket (m : String) (s : SrvState) : SrvState :=
  if s.sims.contains m then s
  else
    let subs := subscribersOf s m
    { s with
      sims := m :: s.sims,
      log := (subs.map fun h => LogEvt.deliver h m) ++
             (subs.map fun h => LogEvt.notifySim h m) ++ (LogEvt.simStart m :: s.log) }

/-- connectToBinanceWebSocket (exchange.ts lines 743-813): reads the
attempt count, stores count+1, and either switches to simulation (old
count ≥ MAX_ATTEMPTS) or creates a fresh WebSocket to Binance. -/
def connectToBinanceWebSocket (m : String) (s : SrvState) : SrvState :=
  let old := (alGet s.attempts m).getD 0
  let s1 : SrvState := { s with attempts := alSet s.attempts m (old + 1) }
  if old ≥ MAX_ATTEMPTS then startSimulationForMarket m s1
  else { s1 with nextSock := s1.nextSock + 1,
                 log := LogEvt.realStart m s1.nextSock :: s1.log }

/-- subscribeToMarket (exchange.ts lines 680-700): add the market to the
handle's set; start a connection only when marketConnections has no entry
for the market.  (The subscription confirmation sent back to the caller is
not logged.) -/
def subscribeToMarket (h : ℕ) (m : String) (s : SrvState) : SrvState :=
  match alGet s.clients h with
  | none => s
  | some ms =>
    let s1 : SrvState := { s with clients := alSet s.clients h (insertIfAbsent ms m) }
    if (alGet s1.conns m).isNone then connectToBinanceWebSocket m s1 else s1

/-- unsubscribeFromMarket (exchange.ts lines 703-736): remove the market
from the handle's set; when no client needs it any more and an upstream
connection is registered, close it and drop the registration. -/
def unsubscribeFromMarket (h : ℕ) (m : String) (s : SrvState) : SrvState :=
  match alGet s.clients h with
  | none => s
  | some ms =>
    let s1 : SrvState := { s with clients := alSet s.clients h (eraseAllL ms m) }
    if !hasSubscriber s1 m && (alGet s1.conns m).isSome then
      { s1 with conns := alDel s1.conns m, log := LogEvt.teardown m :: s1.log }
    else s1

/-- The ws close handler of initializeWebSocket (exchange.ts lines
638-646): the client entry is deleted, nothing else. -/
def onSubscriberDisconnect (h : ℕ) (s : SrvState) : SrvState :=
  { s with clients := alDel s.clients h }

/-- The ws connection handler: register the client with an empty set. -/
def onSubscriberConnect (h : ℕ) (s : SrvState) : SrvState :=
  { s with clients := alSet s.clients h [] }

/-- The Binance socket open handler (exchange.ts lines 762-767): register
the connection, reset the attempt counter. -/
def onSocketOpen (m : String) (sid : ℕ) (s : SrvState) : SrvState :=
  { s with conns := alSet s.conns m sid, attempts := alSet s.attempts m 0 }

/-- The Binance socket error handler (exchange.ts lines 778-787): a
message containing 451 (geo-blocking) starts the simulation; any other
error is only logged. -/
def onSocketError (m : String) (msg : String) (s : SrvState) : SrvState :=
  if strHas msg "451" then startSimulationForMarket m s else s

/-- The Binance socket close handler (exchange.ts lines 789-791):
unregister the connection.  The 5-second reconnect timer it schedules is
the separate `reconnectTimer` event below. -/
def onSocketClose (m : String) (s : SrvState) : SrvState :=
  { s with conns := alDel s.conns m }

/-- Body of the reconnect timer (exchange.ts lines 794-811): reconnect
only if some subscriber remains and the attempt budget is not spent. -/
def reconnectTimer (m : String) (s : SrvState) : SrvState :=
  if hasSubscriber s m && decide ((alGet s.attempts m).getD 0 < MAX_ATTEMPTS) then
    connectToBinanceWebSocket m s
  else s

/-- One firing of the simulation interval (exchange.ts lines 855-900):
broadcast to all subscribers, then clear the interval when no subscriber
remains.  (A no-op when no interval is installed for the market.) -/
def onSimTick (m : String) (s : SrvState) : SrvState :=
  if s.sims.contains m then
    let subs := subscribersOf s m
    let s1 : SrvState := { s with log := (subs.map fun h => LogEvt.deliver h m) ++ s.log }
    if subs.isEmpty then
      { s1 with sims := eraseAllL s1.sims m, log := LogEvt.simStop m :: s1.log }
    else s1
  else s

/-- The events the environment can fire at the server feed module. -/
inductive SEvent where
  | connect (h : ℕ)
  | subscribe (h : ℕ) (m : String)
  | subscribeMultiple (h : ℕ) (ms : List String)
  | unsubscribe (h : ℕ) (m : String)
  | disconnect (h : ℕ)
  | socketOpen (m : String) (sid : ℕ)
  | socketError (m : String) (msg : String)
  | socketClose (m : String)
  | reconnect (m : String)
  | simTick (m : String)
deriving DecidableEq, Repr

/-- Dispatch one event. -/
def srvStepE (e : SEvent) (s : SrvState) : SrvState :=
  match e with
  | SEvent.connect h => onSubscriberConnect h s
  | SEvent.subscribe h m => subscribeToMarket h m s
  | SEvent.subscribeMultiple h ms => ms.foldl (fun acc m => subscribeToMarket h m acc) s
  | SEvent.unsubscribe h m => unsubscribeFromMarket h m s
  | SEvent.disconnect h => onSubscriberDisconnect h s
  | SEvent.socketOpen m sid => onSocketOpen m sid s
  | SEvent.socketError m msg => onSocketError m msg s
  | SEvent.socketClose m => onSocketClose m s
  | SEvent.reconnect m => reconnectTimer m s
  | SEvent.simTick m => onSimTick m s

/-- Run a list of events from a state. -/
def srvRun (evs : List SEvent) (s : SrvState) : SrvState :=
  evs.foldl (fun acc e => srvStepE e acc) s

/-- The module's initial state (empty module-level maps). -/
def srvInit : SrvState :=
  { clients := [], conns := [], attempts := [], sims := [], nextSock := 0, log := [] }

/-- Number of feed-source starts (real connection or simulation) for a
market in a log. -/
def countFeedStarts (m : String) (l : List LogEvt) : ℕ :=
  (l.filter fun e =>
    match e with
    | LogEvt.realStart m' _ => m' == m
    | LogEvt.simStart m' => m' == m
    | _ => false).length

/-- Number of real-connection starts for a market in a log. -/
def countRealStarts (m : String) (l : List LogEvt) : ℕ :=
  (l.filter fun e =>
    match e with
    | LogEvt.realStart m' _ => m' == m
    | _ => false).length

/-- Number of teardowns for a market in a log. -/
def countTeardowns (m : String) (l : List LogEvt) : ℕ :=
  (l.filter fun e =>
    match e with
    | LogEvt.teardown m' => m' == m
    | _ => false).length

/-- Number of data deliveries for a market in a log. -/
def countDelivers (m : String) (l : List LogEvt) : ℕ :=
  (l.filter fun e =>
    match e with
    | LogEvt.deliver _ m' => m' == m
    | _ => false).length

/-! ### Client-side WebSocketService (client/src/lib/webSocketService.ts) -/

/-- The client connection states. -/
inductive WSState where
  | connecting
  | connected
  | reconnecting
  | disconnected
  | errorState
  | simulated
deriving DecidableEq, Repr

/-- Client service state: whether a socket object exists in OPEN state,
the subscriptions map (market → set of callback ids), the keys of
simulationIntervals, the connection state, the reconnect counter and the
pending reconnect-timer delay (none = no timer). -/
structure CliState where
  socketLive : Bool
  subs : List (String × List ℕ)
  simInts : List String
  wsState : WSState
  reconnectAttempts : ℕ
  timer : Option ℚ
deriving DecidableEq, Repr

def maxReconnectAttempts : ℕ := 1
def reconnectDelay : ℚ := 1000

/-- startSimulation (webSocketService.ts lines 170-221): idempotent
installation of the per-market interval. -/
def cliStartSimulation (m : String) (s : CliState) : CliState :=
  if s.simInts.contains m then s else { s with simInts := m :: s.simInts }

/-- stopSimulation (webSocketService.ts lines 223-229). -/
def cliStopSimulation (m : String) (s : CliState) : CliState :=
  { s with simInts := eraseAllL s.simInts m }

/-- fallbackToSimulation (webSocketService.ts lines 136-159): detach and
drop the socket, enter the simulated state, and start a simulation for
every market in the subscriptions map. -/
def fallbackToSimulation (s : CliState) : CliState :=
  let s1 : CliState := { s with socketLive := false, wsState := WSState.simulated }
  (s1.subs.map Prod.fst).foldl (fun acc m => cliStartSimulation m acc) s1

/-- attemptReconnect (webSocketService.ts lines 114-134): clear any
pending timer; if the budget is spent fall back to simulation, otherwise
increment the counter and schedule a reconnect after
reconnectDelay * 1.5 ^ (attempts - 1). -/
def attemptReconnect (s : CliState) : CliState :=
  let s0 : CliState := { s with timer := none }
  if s0.reconnectAttempts ≥ maxReconnectAttempts then fallbackToSimulation s0
  else { s0 with reconnectAttempts := s0.reconnectAttempts + 1,
                 timer := some (reconnectDelay * (3/2) ^ s0.reconnectAttempts) }

/-- subscribe (webSocketService.ts lines 231-250): on a first subscription
to a market, create its (empty) callback set, send the subscription when
the socket is open or start the local simulation when in simulated state,
then add the callback. -/
def cliSubscribe (m : String) (cb : ℕ) (s : CliState) : CliState :=
  match alGet s.subs m with
  | some cbs => { s with subs := alSet s.subs m (insertIfAbsent cbs cb) }
  | none =>
    let s1 : CliState := { s with subs := alSet s.subs m [] }
    let s2 : CliState :=
      if s1.socketLive then s1
      else if s1.wsState = WSState.simulated then cliStartSimulation m s1
      else s1
    { s2 with subs := alSet s2.subs m [cb] }

/-- unsubscribe (webSocketService.ts lines 252-262): drop the callback;
when the set becomes empty remove the market and stop its simulation. -/
def cliUnsubscribe (m : String) (cb : ℕ) (s : CliState) : CliState :=
  match alGet s.subs m with
  | none => s
  | some cbs =>
    let cbs' := eraseAllL cbs cb
    if cbs'.isEmpty then
      cliStopSimulation m { s with subs := alDel s.subs m }
    else { s with subs := alSet s.subs m cbs' }

/-- close (webSocketService.ts lines 268-273): clear every simulation
interval and the whole subscriptions map. -/
def cliClose (s : CliState) : CliState :=
  { s with simInts := [], subs := [] }

/-- The C10 invariant, executable form: every market with a simulation
interval is in the subscriptions map with a nonempty callback set. -/
def cliInvB (s : CliState) : Bool :=
  s.simInts.all fun m =>
    match alGet s.subs m with
    | some cbs => !cbs.isEmpty
    | none => false

/-! ### Derived definitions and concrete fixtures used by the theorems -/

/-- Current attempt count for a market. -/
def attemptsOf (s : SrvState) (m : String) : ℕ := (alGet s.attempts m).getD 0

/-- Inductive invariant bounding real connection starts: at most
MAX_ATTEMPTS sockets have been created for a market, and none before its
first connectToBinanceWebSocket call. -/
def realStartInv (m : String) (s : SrvState) : Prop :=
  countRealStarts m s.log ≤ MAX_ATTEMPTS ∧
  (attemptsOf s m = 0 → countRealStarts m s.log = 0)

/-- Adapter with no API keys configured (simulation mode). -/
def simOnlyAdapter : RealAdapter :=
  { hasKeys := false, loadMarkets := Except.ok (),
    mkMarket := fun _ _ _ _ => Except.error "no keys",
    mkLimit := fun _ _ _ _ _ => Except.error "no keys" }

/-- Environment for the C1 counterexample: the public ticker is
unreachable and the two successive Math.random() draws differ (0.9 for the
pre-execution price fetch, 0 for the fill-price fetch). -/
def envC1 : ExeEnv :=
  { rand := fun k => if k = 0 then 9/10 else 0, tick := fun _ => none, now := 5 }

/-- Environment with all random draws 0 and an unreachable ticker. -/
def envZero : ExeEnv := { rand := fun _ => 0, tick := fun _ => none, now := 7 }

/-- Environment whose public ticker succeeds at price 12345 (C4). -/
def envTicker : ExeEnv := { rand := fun _ => 0, tick := fun _ => some 12345, now := 7 }

/-- Adapter with keys whose market-order placement always throws (C2). -/
def adFailMarket : RealAdapter :=
  { hasKeys := true, loadMarkets := Except.ok (),
    mkMarket := fun _ _ _ _ => Except.error "rejected",
    mkLimit := fun _ _ _ _ _ => Except.error "rejected" }

/-- The i-th order returned by a real adapter that fills market orders
(C3): distinct id per placement, filled at 1700. -/
def realOrd (i : ℕ) : SimplifiedOrder :=
  { id := "real_" ++ toString i, status := "closed", symbol := "ETH/USDT",
    otype := "market", side := "buy", price := 1700, amount := 1, cost := 1700,
    filled := 1, remaining := 0, timestamp := 3, feeCost := 0 }

/-- Adapter with keys whose market orders succeed but whose limit orders
always throw (C3). -/
def adSLThrows : RealAdapter :=
  { hasKeys := true, loadMarkets := Except.ok (),
    mkMarket := fun i _ _ _ => Except.ok (realOrd i),
    mkLimit := fun _ _ _ _ _ => Except.error "limit rejected" }

/-- Random stream for the C5 counterexample: draw 1 (the open-price
perturbation of the first client candle) is 1/2, all others 0. -/
def rndC5 : ℕ → ℚ := fun k => if k = 1 then 1/2 else 0

/-! ### Helper lemmas -/

theorem alGet_alSet_self [DecidableEq α] (l : List (α × β)) (k : α) (v : β) :
    alGet (alSet l k v) k = some v := by
  induction l with
  | nil => simp [alGet, alSet]
  | cons p rest ih =>
    by_cases h : p.1 = k
    · simp [alSet, h, alGet]
    · simp [alSet, h, alGet, ih]

theorem alGet_alSet_ne [DecidableEq α] (l : List (α × β)) (k k' : α) (v : β)
    (h : k' ≠ k) : alGet (alSet l k v) k' = alGet l k' := by
  induction l with
  | nil => simp [alGet, alSet, Ne.symm h]
  | cons p rest ih =>
    by_cases hp : p.1 = k
    · subst hp
      simp [alSet, alGet, Ne.symm h]
    · simp [alSet, hp, alGet, ih]

theorem alGet_alDel_self [DecidableEq α] (l : List (α × β)) (k : α) :
    alGet (alDel l k) k = none := by
  induction l with
  | nil => simp [alGet, alDel]
  | cons p rest ih =>
    by_cases h : p.1 = k
    · simp [alDel, h, ih]
    · simp [alDel, h, alGet, ih]

theorem alGet_alDel_ne [DecidableEq α] (l : List (α × β)) (k k' : α)
    (h : k' ≠ k) : alGet (alDel l k) k' = alGet l k' := by
  induction l with
  | nil => simp [alDel]
  | cons p rest ih =>
    by_cases hp : p.1 = k
    · subst hp
      simp [alDel, alGet, Ne.symm h, ih]
    · simp [alDel, hp, alGet, ih]

theorem mem_eraseAllL [DecidableEq α] (l : List α) (a b : α) :
    a ∈ eraseAllL l b ↔ a ∈ l ∧ a ≠ b := by
  induction l with
  | nil => simp [eraseAllL]
  | cons x rest ih =>
    by_cases h : x = b
    · subst h
      have hE : eraseAllL (x :: rest) x = eraseAllL rest x := by simp [eraseAllL]
      rw [hE, ih]
      simp only [List.mem_cons]
      constructor
      · rintro ⟨ha, hne⟩
        exact ⟨Or.inr ha, hne⟩
      · rintro ⟨hx | ha, hne⟩
        · exact absurd hx hne
        · exact ⟨ha, hne⟩
    · have hE : eraseAllL (x :: rest) b = x :: eraseAllL rest b := by simp [eraseAllL, h]
      rw [hE]
      simp only [List.mem_cons, ih]
      constructor
      · rintro (rfl | ⟨ha, hne⟩)
        · exact ⟨Or.inl rfl, h⟩
        · exact ⟨Or.inr ha, hne⟩
      · rintro ⟨rfl | ha, hne⟩
        · exact Or.inl rfl
        · exact Or.inr ⟨ha, hne⟩

theorem mem_insertIfAbsent [DecidableEq α] (l : List α) (a b : α) :
    a ∈ insertIfAbsent l b ↔ a = b ∨ a ∈ l := by
  unfold insertIfAbsent
  by_cases h : b ∈ l
  · simp [h]
    rintro rfl
    exact h
  · simp [h]

theorem countRealStarts_append (m : String) (l1 l2 : List LogEvt) :
    countRealStarts m (l1 ++ l2) = countRealStarts m l1 + countRealStarts m l2 := by
  unfold countRealStarts
  rw [List.filter_append, List.length_append]

theorem countRealStarts_delivers (m m' : String) (hs : List ℕ) :
    countRealStarts m (hs.map fun h => LogEvt.deliver h m') = 0 := by
  induction hs with
  | nil => rfl
  | cons h rest ih => simp [countRealStarts, List.filter]

theorem countRealStarts_notifies (m m' : String) (hs : List ℕ) :
    countRealStarts m (hs.map fun h => LogEvt.notifySim h m') = 0 := by
  induction hs with
  | nil => rfl
  | cons h rest ih => simp [countRealStarts, List.filter]

theorem countRealStarts_simStart (m m' : String) (l : List LogEvt) :
    countRealStarts m (LogEvt.simStart m' :: l) = countRealStarts m l := by
  simp [countRealStarts, List.filter]

theorem countRealStarts_simStop (m m' : String) (l : List LogEvt) :
    countRealStarts m (LogEvt.simStop m' :: l) = countRealStarts m l := by
  simp [countRealStarts, List.filter]

theorem countRealStarts_teardown (m m' : String) (l : List LogEvt) :
    countRealStarts m (LogEvt.teardown m' :: l) = countRealStarts m l := by
  simp [countRealStarts, List.filter]

theorem countRealStarts_realStart_self (m : String) (sid : ℕ) (l : List LogEvt) :
    countRealStarts m (LogEvt.realStart m sid :: l) = countRealStarts m l + 1 := by
  simp [countRealStarts, List.filter]

theorem countRealStarts_realStart_ne (m m' : String) (sid : ℕ) (l : List LogEvt)
    (h : m' ≠ m) : countRealStarts m (LogEvt.realStart m' sid :: l) = countRealStarts m l := by
  have hb : (m' == m) = false := by simp [h]
  simp [countRealStarts, List.filter, hb]

theorem countRealStarts_startSim (m m' : String) (s : SrvState) :
    countRealStarts m (startSimulationForMarket m' s).log = countRealStarts m s.log := by
  unfold startSimulationForMarket
  split
  · rfl
  · simp [countRealStarts_append, countRealStarts_delivers, countRealStarts_notifies,
      countRealStarts_simStart]

theorem sims_startSim_mono (m m' : String) (s : SrvState) (h : m ∈ s.sims) :
    m ∈ (startSimulationForMarket m' s).sims := by
  unfold startSimulationForMarket
  split
  · exact h
  · exact List.mem_cons_of_mem _ h

theorem sims_startSim_self (m : String) (s : SrvState) :
    m ∈ (startSimulationForMarket m s).sims := by
  unfold startSimulationForMarket
  split
  · next hc => exact List.mem_of_elem_eq_true hc
  · exact List.mem_cons_self _ _

theorem sims_connect_mono (m m' : String) (s : SrvState) (h : m ∈ s.sims) :
    m ∈ (connectToBinanceWebSocket m' s).sims := by
  unfold connectToBinanceWebSocket
  dsimp only
  split
  · exact sims_startSim_mono m m' _ h
  · exact h

theorem sims_subscribe_mono (m : String) (h' : ℕ) (m' : String) (s : SrvState)
    (h : m ∈ s.sims) : m ∈ (subscribeToMarket h' m' s).sims := by
  unfold subscribeToMarket
  match halGet : alGet s.clients h' with
  | none => exact h
  | some ms =>
    simp only
    split
    · exact sims_connect_mono m m' _ h
    · exact h

theorem subscribersOf_isEmpty (s : SrvState) (m : String) :
    (subscribersOf s m).isEmpty = !hasSubscriber s m := by
  unfold subscribersOf hasSubscriber
  induction s.clients with
  | nil => rfl
  | cons hc rest ih =>
    by_cases h : m ∈ hc.2
    · simp [List.filter_cons, List.any_cons, h]
    · simpa [List.filter_cons, List.any_cons, h] using ih

theorem sims_unsubscribe (h : ℕ) (m' : String) (s : SrvState) :
    (unsubscribeFromMarket h m' s).sims = s.sims := by
  unfold unsubscribeFromMarket
  match halGet : alGet s.clients h with
  | none => rfl
  | some ms =>
    dsimp only
    split <;> rfl

theorem sims_subscribeMultiple_mono (m : String) (h' : ℕ) (ms : List String)
    (s : SrvState) (h : m ∈ s.sims) :
    m ∈ (ms.foldl (fun acc m' => subscribeToMarket h' m' acc) s).sims := by
  induction ms generalizing s with
  | nil => exact h
  | cons m0 rest ih => exact ih _ (sims_subscribe_mono m h' m0 s h)

theorem sims_reconnect_mono (m m' : String) (s : SrvState) (h : m ∈ s.sims) :
    m ∈ (reconnectTimer m' s).sims := by
  unfold reconnectTimer
  split
  · exact sims_connect_mono m m' s h
  · exact h

/-- The only transition that removes a market from the running-simulation
set is its own interval tick firing with no subscriber left. -/
theorem sims_removal_characterization (e : SEvent) (s : SrvState) (m : String)
    (hin : m ∈ s.sims) (hout : m ∉ (srvStepE e s).sims) :
    e = SEvent.simTick m ∧ hasSubscriber s m = false := by
  cases e with
  | connect h => exact absurd hin hout
  | subscribe h' m' => exact absurd (sims_subscribe_mono m h' m' s hin) hout
  | subscribeMultiple h' ms => exact absurd (sims_subscribeMultiple_mono m h' ms s hin) hout
  | unsubscribe h' m' =>
    rw [srvStepE, sims_unsubscribe] at hout
    exact absurd hin hout
  | disconnect h => exact absurd hin hout
  | socketOpen m' sid => exact absurd hin hout
  | socketError m' msg =>
    rw [srvStepE, onSocketError] at hout
    split at hout
    · exact absurd (sims_startSim_mono m m' s hin) hout
    · exact absurd hin hout
  | socketClose m' => exact absurd hin hout
  | reconnect m' => exact absurd (sims_reconnect_mono m m' s hin) hout
  | simTick m' =>
    rw [srvStepE, onSimTick] at hout
    by_cases hmm : m' = m
    · subst hmm
      split at hout
      · dsimp only at hout
        split at hout
        · next hEmp =>
          refine ⟨rfl, ?_⟩
          have := subscribersOf_isEmpty s m'
          rw [hEmp] at this
          cases hS : hasSubscriber s m'
          · rfl
          · rw [hS] at this
            simp at this
        · exact absurd hin hout
      · next hc =>
        exact absurd hin hout
    · split at hout
      · dsimp only at hout
        split at hout
        · next hEmp =>
          simp only [SrvState.mk.injEq] at hout
          rw [mem_eraseAllL] at hout
          push_neg at hout
          exact absurd (hout hin).symm hmm
        · exact absurd hin hout
      · exact absurd hin hout

theorem attempts_startSim (m' : String) (s : SrvState) :
    (startSimulationForMarket m' s).attempts = s.attempts := by
  unfold startSimulationForMarket
  split <;> rfl

theorem inv_connectToBinance (m m' : String) (s : SrvState) (h : realStartInv m s) :
    realStartInv m (connectToBinanceWebSocket m' s) := by
  obtain ⟨h1, h2⟩ := h
  unfold connectToBinanceWebSocket
  dsimp only
  split
  · constructor
    · rw [countRealStarts_startSim]
      exact h1
    · intro ha
      rw [countRealStarts_startSim]
      unfold attemptsOf at ha
      rw [attempts_startSim] at ha
      dsimp only at ha
      by_cases hm : m' = m
      · subst hm
        rw [alGet_alSet_self] at ha
        simp at ha
      · rw [alGet_alSet_ne _ _ _ _ (Ne.symm hm)] at ha
        exact h2 ha
  · next hlt =>
    have hold : (alGet s.attempts m').getD 0 = 0 := by
      simp only [MAX_ATTEMPTS, ge_iff_le, not_le] at hlt
      omega
    constructor
    · by_cases hm : m' = m
      · subst hm
        dsimp only
        rw [countRealStarts_realStart_self]
        have hz := h2 hold
        simp only [MAX_ATTEMPTS]
        omega
      · dsimp only
        rw [countRealStarts_realStart_ne _ _ _ _ hm]
        exact h1
    · intro ha
      unfold attemptsOf at ha
      dsimp only at ha
      by_cases hm : m' = m
      · subst hm
        rw [alGet_alSet_self] at ha
        simp at ha
      · rw [alGet_alSet_ne _ _ _ _ (Ne.symm hm)] at ha
        dsimp only
        rw [countRealStarts_realStart_ne _ _ _ _ hm]
        exact h2 ha

theorem inv_subscribe (m : String) (h' : ℕ) (m' : String) (s : SrvState)
    (h : realStartInv m s) : realStartInv m (subscribeToMarket h' m' s) := by
  unfold subscribeToMarket
  match halGet : alGet s.clients h' with
  | none => exact h
  | some ms =>
    dsimp only
    split
    · exact inv_connectToBinance m m' _ h
    · exact h

theorem inv_subscribeMultiple (m : String) (h' : ℕ) (ms : List String) (s : SrvState)
    (h : realStartInv m s) :
    realStartInv m (ms.foldl (fun acc m' => subscribeToMarket h' m' acc) s) := by
  induction ms generalizing s with
  | nil => exact h
  | cons m0 rest ih => exact ih _ (inv_subscribe m h' m0 s h)

theorem inv_unsubscribe (m : String) (h' : ℕ) (m' : String) (s : SrvState)
    (h : realStartInv m s) : realStartInv m (unsubscribeFromMarket h' m' s) := by
  unfold unsubscribeFromMarket
  match halGet : alGet s.clients h' with
  | none => exact h
  | some ms =>
    dsimp only
    split
    · obtain ⟨h1, h2⟩ := h
      exact ⟨by rw [countRealStarts_teardown]; exact h1,
             fun ha => by rw [countRealStarts_teardown]; exact h2 ha⟩
    · exact h

theorem inv_startSim (m m' : String) (s : SrvState) (h : realStartInv m s) :
    realStartInv m (startSimulationForMarket m' s) := by
  obtain ⟨h1, h2⟩ := h
  constructor
  · rw [countRealStarts_startSim]
    exact h1
  · intro ha
    rw [countRealStarts_startSim]
    unfold attemptsOf at ha
    rw [attempts_startSim] at ha
    exact h2 ha

theorem inv_simTick (m m' : String) (s : SrvState) (h : realStartInv m s) :
    realStartInv m (onSimTick m' s) := by
  obtain ⟨h1, h2⟩ := h
  unfold onSimTick
  split
  · dsimp only
    split
    · constructor
      · rw [countRealStarts_simStop, countRealStarts_append, countRealStarts_delivers]
        simpa using h1
      · intro ha
        rw [countRealStarts_simStop, countRealStarts_append, countRealStarts_delivers]
        simpa using h2 ha
    · constructor
      · rw [countRealStarts_append, countRealStarts_delivers]
        simpa using h1
      · intro ha
        rw [countRealStarts_append, countRealStarts_delivers]
        simpa using h2 ha
  · exact ⟨h1, h2⟩

theorem inv_step (m : String) (e : SEvent) (s : SrvState)
    (hnot : ∀ sid, e ≠ SEvent.socketOpen m sid) (h : realStartInv m s) :
    realStartInv m (srvStepE e s) := by
  cases e with
  | connect h' => exact h
  | subscribe h' m' => exact inv_subscribe m h' m' s h
  | subscribeMultiple h' ms => exact inv_subscribeMultiple m h' ms s h
  | unsubscribe h' m' => exact inv_unsubscribe m h' m' s h
  | disconnect h' => exact h
  | socketOpen m' sid =>
    have hm : m' ≠ m := by
      intro hEq
      exact hnot sid (by rw [hEq])
    obtain ⟨h1, h2⟩ := h
    refine ⟨h1, fun ha => ?_⟩
    unfold attemptsOf at ha
    dsimp only [srvStepE, onSocketOpen] at ha
    rw [alGet_alSet_ne _ _ _ _ (Ne.symm hm)] at ha
    exact h2 ha
  | socketError m' msg =>
    dsimp only [srvStepE, onSocketError]
    split
    · exact inv_startSim m m' s h
    · exact h
  | socketClose m' => exact h
  | reconnect m' =>
    dsimp only [srvStepE, reconnectTimer]
    split
    · exact inv_connectToBinance m m' s h
    · exact h
  | simTick m' => exact inv_simTick m m' s h

theorem inv_run (m : String) (evs : List SEvent) (s : SrvState)
    (hnot : ∀ sid, SEvent.socketOpen m sid ∉ evs) (h : realStartInv m s) :
    realStartInv m (srvRun evs s) := by
  induction evs generalizing s with
  | nil => exact h
  | cons e rest ih =>
    have he : ∀ sid, e ≠ SEvent.socketOpen m sid := by
      intro sid hEq
      exact hnot sid (by rw [hEq]; exact List.mem_cons_self _ _)
    have hrest : ∀ sid, SEvent.socketOpen m sid ∉ rest := by
      intro sid hmem
      exact hnot sid (List.mem_cons_of_mem _ hmem)
    exact ih _ hrest (inv_step m e s he h)

theorem srvBasePrice_pos (m : String) : 0 < srvBasePrice m := by
  unfold srvBasePrice
  split
  · norm_num
  · split <;> norm_num

theorem candleInv_srvInitCandle (m : String) (t0 r : ℚ) :
    candleInv (srvInitCandle m t0 r) := by
  have hb := srvBasePrice_pos m
  unfold candleInv srvInitCandle
  dsimp only
  constructor
  · rw [min_self]
    nlinarith
  · rw [max_self]
    nlinarith

theorem candleInv_srvStep (c : Candle) (boundary : Bool) (now r1 r2 : ℚ)
    (h : candleInv c) : candleInv (srvStep c boundary now r1 r2) := by
  obtain ⟨hlo, hhi⟩ := h
  have hLoOpn : c.lo ≤ c.opn := le_trans hlo (min_le_left _ _)
  have hOpnHi : c.opn ≤ c.hi := le_trans (le_max_left _ _) hhi
  unfold srvStep
  split
  · simp [candleInv]
  · dsimp only [candleInv]
    constructor
    · exact le_min (le_trans (min_le_left _ _) hLoOpn) (min_le_right _ _)
    · exact max_le (le_trans hOpnHi (le_max_left _ _)) (le_max_right _ _)

theorem srvCandle_inv (m : String) (rnd : ℕ → ℚ) (bdry : ℕ → Bool) (tms : ℕ → ℚ) :
    ∀ n, candleInv (srvCandle m rnd bdry tms n) := by
  intro n
  induction n with
  | zero => exact candleInv_srvInitCandle m (tms 0) (rnd 0)
  | succ k ih => exact candleInv_srvStep _ _ _ _ _ ih

theorem cliBasePrice_pos (m : String) : 0 < cliBasePrice m := by
  unfold cliBasePrice
  dsimp only
  split
  · norm_num
  · split
    · norm_num
    · split
      · norm_num
      · split <;> norm_num

theorem cliPrice_pos (m : String) (rnd : ℕ → ℚ) (hv : validRnd rnd) :
    ∀ n, 0 < cliPrice m rnd n := by
  intro n
  induction n with
  | zero =>
    have hb := cliBasePrice_pos m
    have hr := hv 0
    unfold cliPrice
    nlinarith [hr.1, hr.2]
  | succ k ih =>
    have hr := hv (6 * (k + 1))
    unfold cliPrice
    nlinarith [hr.1, hr.2]

theorem cliCandleHiLoBounds (m : String) (rnd : ℕ → ℚ) (tms : ℕ → ℚ) (n : ℕ)
    (hv : validRnd rnd) :
    max (cliCandle m rnd tms n).opn (cliCandle m rnd tms n).cls ≤ (cliCandle m rnd tms n).hi ∧
    (cliCandle m rnd tms n).lo ≤ (cliCandle m rnd tms n).cls := by
  have hp := cliPrice_pos m rnd hv n
  have h1 := hv (6 * n + 1)
  have h2 := hv (6 * n + 2)
  have h3 := hv (6 * n + 3)
  unfold cliCandle
  dsimp only
  refine ⟨max_le ?_ ?_, ?_⟩
  · nlinarith [h1.1, h2.1]
  · nlinarith [h2.1]
  · nlinarith [h3.1]

theorem insertIfAbsent_isEmpty [DecidableEq α] (l : List α) (a : α) :
    (insertIfAbsent l a).isEmpty = false := by
  unfold insertIfAbsent
  split
  · next h =>
    cases l with
    | nil => simp at h
    | cons x xs => rfl
  · rfl

theorem cliInvB_iff (s : CliState) :
    cliInvB s = true ↔
      ∀ m ∈ s.simInts, ∃ cbs, alGet s.subs m = some cbs ∧ cbs.isEmpty = false := by
  unfold cliInvB
  rw [List.all_eq_true]
  constructor
  · intro h m hm
    have hh := h m hm
    match halGet : alGet s.subs m with
    | some cbs =>
      rw [halGet] at hh
      refine ⟨cbs, rfl, ?_⟩
      simpa using hh
    | none =>
      rw [halGet] at hh
      simp at hh
  · intro h m hm
    obtain ⟨cbs, hg, hne⟩ := h m hm
    rw [hg]
    simpa using hne

theorem mem_cliStartSim_simInts (m m0 : String) (s : CliState)
    (h : m0 ∈ (cliStartSimulation m s).simInts) : m0 = m ∨ m0 ∈ s.simInts := by
  unfold cliStartSimulation at h
  split at h
  · exact Or.inr h
  · rcases List.mem_cons.mp h with h | h
    · exact Or.inl h
    · exact Or.inr h

theorem subs_cliStartSim (m : String) (s : CliState) :
    (cliStartSimulation m s).subs = s.subs := by
  unfold cliStartSimulation
  split <;> rfl

theorem cliInv_subscribe (m : String) (cb : ℕ) (s : CliState)
    (h : cliInvB s = true) : cliInvB (cliSubscribe m cb s) = true := by
  rw [cliInvB_iff] at h
  rw [cliInvB_iff]
  unfold cliSubscribe
  match halGet : alGet s.subs m with
  | some cbs =>
    dsimp only
    intro m0 hm0
    by_cases hmm : m0 = m
    · subst hmm
      exact ⟨insertIfAbsent cbs cb, alGet_alSet_self _ _ _, insertIfAbsent_isEmpty _ _⟩
    · obtain ⟨cbs0, hg, hne⟩ := h m0 hm0
      exact ⟨cbs0, by rw [alGet_alSet_ne _ _ _ _ hmm]; exact hg, hne⟩
  | none =>
    dsimp only
    intro m0 hm0
    by_cases hmm : m0 = m
    · subst hmm
      exact ⟨[cb], alGet_alSet_self _ _ _, rfl⟩
    · rw [alGet_alSet_ne _ _ _ _ hmm]
      by_cases hLive : s.socketLive = true
      · simp only [hLive, if_true] at hm0 ⊢
        obtain ⟨cbs0, hg, hne⟩ := h m0 hm0
        refine ⟨cbs0, ?_, hne⟩
        dsimp only
        rw [alGet_alSet_ne _ _ _ _ hmm]
        exact hg
      · by_cases hSim : s.wsState = WSState.simulated
        · simp only [hLive, hSim, Bool.false_eq_true, if_false, if_true, ite_false,
            Bool.not_eq_true] at hm0 ⊢
          rw [subs_cliStartSim]
          have hm0' : m0 ∈ s.simInts := by
            rcases mem_cliStartSim_simInts m m0 _ hm0 with hEq | hIn
            · exact absurd hEq hmm
            · exact hIn
          obtain ⟨cbs0, hg, hne⟩ := h m0 hm0'
          refine ⟨cbs0, ?_, hne⟩
          dsimp only
          rw [alGet_alSet_ne _ _ _ _ hmm]
          exact hg
        · simp only [hLive, hSim, Bool.false_eq_true, if_false, ite_false,
            Bool.not_eq_true] at hm0 ⊢
          obtain ⟨cbs0, hg, hne⟩ := h m0 hm0
          refine ⟨cbs0, ?_, hne⟩
          dsimp only
          rw [alGet_alSet_ne _ _ _ _ hmm]
          exact hg
theorem cliInv_unsubscribe (m : String) (cb : ℕ) (s : CliState)
    (h : cliInvB s = true) : cliInvB (cliUnsubscribe m cb s) = true := by
  rw [cliInvB_iff] at h
  rw [cliInvB_iff]
  unfold cliUnsubscribe
  match halGet : alGet s.subs m with
  | none => exact h
  | some cbs =>
    dsimp only
    split
    · intro m0 hm0
      unfold cliStopSimulation at hm0
      dsimp only at hm0
      rw [mem_eraseAllL] at hm0
      obtain ⟨cbs0, hg, hne⟩ := h m0 hm0.1
      refine ⟨cbs0, ?_, hne⟩
      unfold cliStopSimulation
      dsimp only
      rw [alGet_alDel_ne _ _ _ hm0.2]
      exact hg
    · next hNE =>
      intro m0 hm0
      by_cases hmm : m0 = m
      · subst hmm
        refine ⟨eraseAllL cbs cb, alGet_alSet_self _ _ _, ?_⟩
        cases hE : (eraseAllL cbs cb).isEmpty
        · rfl
        · exact absurd hE hNE
      · obtain ⟨cbs0, hg, hne⟩ := h m0 hm0
        exact ⟨cbs0, by rw [alGet_alSet_ne _ _ _ _ hmm]; exact hg, hne⟩

theorem cliInv_close (s : CliState) : cliInvB (cliClose s) = true := rfl

theorem cliUnsubscribe_last (m : String) (cb : ℕ) (s : CliState)
    (h : alGet s.subs m = some [cb]) :
    alGet (cliUnsubscribe m cb s).subs m = none ∧ m ∉ (cliUnsubscribe m cb s).simInts := by
  unfold cliUnsubscribe
  rw [h]
  have hE : eraseAllL [cb] cb = ([] : List ℕ) := by simp [eraseAllL]
  dsimp only
  rw [hE]
  simp only [List.isEmpty_nil, if_true]
  constructor
  · unfold cliStopSimulation
    dsimp only
    exact alGet_alDel_self _ _
  · unfold cliStopSimulation
    dsimp only
    rw [mem_eraseAllL]
    simp

theorem getMarketPrice_mc (env : ExeEnv) (st : ExeSt) (symbol : String) :
    (getMarketPrice env st symbol).2.mc = st.mc := by
  unfold getMarketPrice
  split <;> rfl

theorem getMarketPrice_lc (env : ExeEnv) (st : ExeSt) (symbol : String) :
    (getMarketPrice env st symbol).2.lc = st.lc := by
  unfold getMarketPrice
  split <;> rfl

/-! ### Claim theorems -/

/-- C1 (counterexample): executing
executeSignal("ETH/USDT", BUY, 1, market, stopLossPct 2, takeProfitPct 5)
against the simulated exchange with an unreachable ticker and random draws
0.9 then 0: the primary order fills at P = 1725, but the returned
stop-loss price is 1734.6 — not P*(1 - 2/100) = 1690.5, and even above the
entry fill price — because the engine prices dependents from a separate,
earlier getMarketPrice draw (1770), not from the fill price. -/
theorem C1_counterexample :
    (executeTradeSignal simOnlyAdapter envC1 {} "ETH/USDT" "BUY" 1 (some 2) (some 5)).1.order.price
        = 1725 ∧
    ((executeTradeSignal simOnlyAdapter envC1 {} "ETH/USDT" "BUY" 1 (some 2)
        (some 5)).1.stopLossOrder.map fun o => o.price) = some (8673/5) ∧
    (8673/5 : ℚ) ≠ 1725 * (1 - 2/100) ∧ (1725 : ℚ) < 8673/5 := by
  have h1 : strHas "ETH/USDT" "BTC" = false := rfl
  have h2 : strHas "ETH/USDT" "ETH" = true := rfl
  norm_num [executeTradeSignal, executeSignalSim, createMarketOrder, simMarketOrder,
    createLimitOrder, simLimitOrder, getMarketPrice, freshOrderId, simPrice, truthy,
    stopLossPrice, takeProfitPrice, oppositeAction, lowerStr, envC1, simOnlyAdapter, h1, h2]

/-- C1 (amended): with no API keys, executeSignal prices the stop-loss at
C*(1 - s/100) and the take-profit at C*(1 + t/100) where C is the market
price fetched at the start of the simulated execution — which may differ
from the primary order's fill price, obtained from a second, independent
fetch — and both dependents are opposite-side limit orders of the same
amount (signs flipped for a SELL signal, per stopLossPrice /
takeProfitPrice); the primary order is a closed market order. -/
theorem C1_corrected (A : RealAdapter) (env : ExeEnv) (st : ExeSt)
    (symbol signal : String) (amount sl tp : ℚ)
    (hK : A.hasKeys = false) (hsl : sl ≠ 0) (htp : tp ≠ 0) :
    ((executeTradeSignal A env st symbol signal amount (some sl) (some tp)).1.order.otype
        = "market" ∧
     (executeTradeSignal A env st symbol signal amount (some sl) (some tp)).1.order.side
        = lowerStr signal ∧
     (executeTradeSignal A env st symbol signal amount (some sl) (some tp)).1.order.status
        = "closed" ∧
     (executeTradeSignal A env st symbol signal amount (some sl) (some tp)).1.order.amount
        = amount) ∧
    ((executeTradeSignal A env st symbol signal amount (some sl) (some tp)).1.stopLossOrder.map
        fun o => (o.otype, o.side, o.amount, o.status, o.price))
      = some ("limit", oppositeAction signal, amount, "open",
          stopLossPrice signal (getMarketPrice env st symbol).1 sl) ∧
    ((executeTradeSignal A env st symbol signal amount (some sl) (some tp)).1.takeProfitOrder.map
        fun o => (o.otype, o.side, o.amount, o.status, o.price))
      = some ("limit", oppositeAction signal, amount, "open",
          takeProfitPrice signal (getMarketPrice env st symbol).1 tp) := by
  have htr1 : truthy (some sl) = true := by simp [truthy, hsl]
  have htr2 : truthy (some tp) = true := by simp [truthy, htp]
  simp [executeTradeSignal, hK, executeSignalSim,
    createMarketOrder, createLimitOrder, simMarketOrder, simLimitOrder, htr1, htr2]

/-- C1 (witness): the amended theorem instantiated at the C1 scenario. -/
theorem C1_witness :
    simOnlyAdapter.hasKeys = false ∧ (2 : ℚ) ≠ 0 ∧ (5 : ℚ) ≠ 0 ∧
    (((executeTradeSignal simOnlyAdapter envC1 {} "ETH/USDT" "BUY" 1 (some 2)
        (some 5)).1.order.otype = "market" ∧
      (executeTradeSignal simOnlyAdapter envC1 {} "ETH/USDT" "BUY" 1 (some 2)
        (some 5)).1.order.side = lowerStr "BUY" ∧
      (executeTradeSignal simOnlyAdapter envC1 {} "ETH/USDT" "BUY" 1 (some 2)
        (some 5)).1.order.status = "closed" ∧
      (executeTradeSignal simOnlyAdapter envC1 {} "ETH/USDT" "BUY" 1 (some 2)
        (some 5)).1.order.amount = 1) ∧
     ((executeTradeSignal simOnlyAdapter envC1 {} "ETH/USDT" "BUY" 1 (some 2)
        (some 5)).1.stopLossOrder.map fun o => (o.otype, o.side, o.amount, o.status, o.price))
       = some ("limit", oppositeAction "BUY", 1, "open",
           stopLossPrice "BUY" (getMarketPrice envC1 {} "ETH/USDT").1 2) ∧
     ((executeTradeSignal simOnlyAdapter envC1 {} "ETH/USDT" "BUY" 1 (some 2)
        (some 5)).1.takeProfitOrder.map fun o => (o.otype, o.side, o.amount, o.status, o.price))
       = some ("limit", oppositeAction "BUY", 1, "open",
           takeProfitPrice "BUY" (getMarketPrice envC1 {} "ETH/USDT").1 5)) :=
  ⟨rfl, by norm_num, by norm_num,
   C1_corrected simOnlyAdapter envC1 {} "ETH/USDT" "BUY" 1 2 5 rfl (by norm_num) (by norm_num)⟩

/-- C2 (counterexample): with keys configured and a primary market order
whose placement always throws, executeSignal does not propagate the
exception and does not return "no Order": it falls back to the simulated
path, returning a closed simulated primary order together with the
requested dependent orders. -/
theorem C2_counterexample :
    (executeTradeSignal adFailMarket envZero {} "ETH/USDT" "BUY" 1 (some 2)
      (some 5)).1.order.status = "closed" ∧
    (executeTradeSignal adFailMarket envZero {} "ETH/USDT" "BUY" 1 (some 2)
      (some 5)).1.order.filled = 1 ∧
    (executeTradeSignal adFailMarket envZero {} "ETH/USDT" "BUY" 1 (some 2)
      (some 5)).1.stopLossOrder ≠ none ∧
    (executeTradeSignal adFailMarket envZero {} "ETH/USDT" "BUY" 1 (some 2)
      (some 5)).1.takeProfitOrder ≠ none := by
  have h1 : strHas "ETH/USDT" "BTC" = false := rfl
  have h2 : strHas "ETH/USDT" "ETH" = true := rfl
  norm_num [executeTradeSignal, executeSignalSim, createMarketOrder, simMarketOrder,
    createLimitOrder, simLimitOrder, getMarketPrice, freshOrderId, simPrice, truthy,
    stopLossPrice, takeProfitPrice, oppositeAction, lowerStr, envZero, adFailMarket, h1, h2]
  exact ⟨fun h => Option.noConfusion h, fun h => Option.noConfusion h⟩

/-- C2 (amended): an adapter exception while placing the primary order
never propagates: the whole execution falls back to the simulated path, so
the caller still receives a result whose primary order is a closed
simulated market fill of the full amount, with dependent orders still
attempted (present whenever the respective percentage was given). -/
theorem C2_corrected (A : RealAdapter) (env : ExeEnv) (st : ExeSt)
    (symbol signal : String) (amount : ℚ) (stopLoss takeProfit : Option ℚ) (msg : String)
    (hK : A.hasKeys = true) (hL : A.loadMarkets = Except.ok ())
    (hM : ∀ n, A.mkMarket n symbol (lowerStr signal) amount = Except.error msg) :
    (executeTradeSignal A env st symbol signal amount stopLoss takeProfit).1.order.status
        = "closed" ∧
    (executeTradeSignal A env st symbol signal amount stopLoss takeProfit).1.order.otype
        = "market" ∧
    (executeTradeSignal A env st symbol signal amount stopLoss takeProfit).1.order.filled
        = amount ∧
    (executeTradeSignal A env st symbol signal amount stopLoss takeProfit).1.order.remaining
        = 0 ∧
    (truthy stopLoss = true →
      (executeTradeSignal A env st symbol signal amount stopLoss takeProfit).1.stopLossOrder
        ≠ none) ∧
    (truthy takeProfit = true →
      (executeTradeSignal A env st symbol signal amount stopLoss takeProfit).1.takeProfitOrder
        ≠ none) := by
  simp only [executeTradeSignal, hK, hL, hM, if_true, executeSignalSim, createMarketOrder,
    simMarketOrder]
  refine ⟨trivial, trivial, trivial, trivial, fun htr => by simp [htr], fun htr => by simp [htr]⟩

/-- C2 (witness): the amended theorem at the C2 scenario. -/
theorem C2_witness :
    adFailMarket.hasKeys = true ∧ adFailMarket.loadMarkets = Except.ok () ∧
    (∀ n, adFailMarket.mkMarket n "ETH/USDT" (lowerStr "BUY") 1 = Except.error "rejected") ∧
    ((executeTradeSignal adFailMarket envZero {} "ETH/USDT" "BUY" 1 (some 2)
        (some 5)).1.order.status = "closed" ∧
     (executeTradeSignal adFailMarket envZero {} "ETH/USDT" "BUY" 1 (some 2)
        (some 5)).1.order.otype = "market" ∧
     (executeTradeSignal adFailMarket envZero {} "ETH/USDT" "BUY" 1 (some 2)
        (some 5)).1.order.filled = 1 ∧
     (executeTradeSignal adFailMarket envZero {} "ETH/USDT" "BUY" 1 (some 2)
        (some 5)).1.order.remaining = 0 ∧
     (truthy (some 2) = true →
       (executeTradeSignal adFailMarket envZero {} "ETH/USDT" "BUY" 1 (some 2)
         (some 5)).1.stopLossOrder ≠ none) ∧
     (truthy (some 5) = true →
       (executeTradeSignal adFailMarket envZero {} "ETH/USDT" "BUY" 1 (some 2)
         (some 5)).1.takeProfitOrder ≠ none)) :=
  ⟨rfl, rfl, fun _ => rfl,
   C2_corrected adFailMarket envZero {} "ETH/USDT" "BUY" 1 (some 2) (some 5) "rejected"
     rfl rfl (fun _ => rfl)⟩

/-- C3 (counterexample): keys configured, the primary market order
succeeds as realOrd 0 (closed, price 1700), the stop-loss limit placement
throws.  The result does NOT contain that same primary order and the
failed stop loss is NOT merely absent: the catch falls back to the full
simulated path, which places the primary market order a second time
(returning realOrd 1) and returns a simulated stop-loss order. -/
theorem C3_counterexample :
    (executeTradeSignal adSLThrows envZero {} "ETH/USDT" "BUY" 1 (some 2)
      (some 5)).1.order ≠ realOrd 0 ∧
    (executeTradeSignal adSLThrows envZero {} "ETH/USDT" "BUY" 1 (some 2)
      (some 5)).1.order = realOrd 1 ∧
    (executeTradeSignal adSLThrows envZero {} "ETH/USDT" "BUY" 1 (some 2)
      (some 5)).1.stopLossOrder ≠ none := by
  have h1 : strHas "ETH/USDT" "BTC" = false := rfl
  have h2 : strHas "ETH/USDT" "ETH" = true := rfl
  have h3 : lowerStr "BUY" = "buy" := rfl
  norm_num [executeTradeSignal, executeSignalSim, createMarketOrder, simMarketOrder,
    createLimitOrder, simLimitOrder, getMarketPrice, freshOrderId, simPrice, truthy,
    stopLossPrice, takeProfitPrice, oppositeAction, h3, envZero, adSLThrows, h1, h2,
    realOrd]
  exact ⟨by decide, fun h => Option.noConfusion h⟩

/-- C3 (amended): when the primary real order succeeds (closed, nonzero
fill price) but the real stop-loss limit placement throws, executeSignal
does not return the already-placed primary order with the stop loss
omitted: the catch restarts the whole execution on the simulated path, so
the primary market order is placed a second time and that second order is
what the result contains, together with a (fallback) stop-loss order and,
if requested, a take-profit order; nothing is cancelled. -/
theorem C3_corrected (A : RealAdapter) (env : ExeEnv) (st : ExeSt)
    (symbol signal : String) (amount sl : ℚ) (takeProfit : Option ℚ)
    (R1 R2 : SimplifiedOrder) (msg : String)
    (hK : A.hasKeys = true) (hL : A.loadMarkets = Except.ok ())
    (hM1 : A.mkMarket st.mc symbol (lowerStr signal) amount = Except.ok R1)
    (hSt : R1.status = "closed") (hP : R1.price ≠ 0) (hsl : sl ≠ 0)
    (hSL : A.mkLimit st.lc symbol (oppositeAction signal) amount
      (stopLossPrice signal R1.price sl) = Except.error msg)
    (hM2 : A.mkMarket (st.mc + 1) symbol (lowerStr signal) amount = Except.ok R2) :
    (executeTradeSignal A env st symbol signal amount (some sl) takeProfit).1.order = R2 ∧
    (executeTradeSignal A env st symbol signal amount (some sl) takeProfit).1.stopLossOrder
      ≠ none ∧
    (truthy takeProfit = true →
      (executeTradeSignal A env st symbol signal amount (some sl) takeProfit).1.takeProfitOrder
        ≠ none) := by
  have htr : truthy (some sl) = true := by simp [truthy, hsl]
  have hget : ((some sl).getD 0) = sl := rfl
  simp only [executeTradeSignal, hK, hL, hM1, if_true, hSt, hP, ne_eq,
    not_false_eq_true, ite_true, htr, hget, hSL, executeSignalSim, createMarketOrder,
    getMarketPrice_mc, hM2, if_false]
  refine ⟨trivial, by simp, fun htp => by simp [htp]⟩

/-- C3 (witness): the amended theorem at the C3 scenario. -/
theorem C3_witness :
    adSLThrows.hasKeys = true ∧
    adSLThrows.mkMarket 0 "ETH/USDT" (lowerStr "BUY") 1 = Except.ok (realOrd 0) ∧
    (realOrd 0).status = "closed" ∧ (realOrd 0).price ≠ 0 ∧
    adSLThrows.mkLimit 0 "ETH/USDT" (oppositeAction "BUY") 1
      (stopLossPrice "BUY" (realOrd 0).price 2) = Except.error "limit rejected" ∧
    adSLThrows.mkMarket 1 "ETH/USDT" (lowerStr "BUY") 1 = Except.ok (realOrd 1) ∧
    ((executeTradeSignal adSLThrows envZero {} "ETH/USDT" "BUY" 1 (some 2)
        (some 5)).1.order = realOrd 1 ∧
     (executeTradeSignal adSLThrows envZero {} "ETH/USDT" "BUY" 1 (some 2)
        (some 5)).1.stopLossOrder ≠ none ∧
     (truthy (some 5) = true →
       (executeTradeSignal adSLThrows envZero {} "ETH/USDT" "BUY" 1 (some 2)
         (some 5)).1.takeProfitOrder ≠ none)) :=
  ⟨rfl, rfl, rfl, by norm_num [realOrd], rfl, rfl,
   C3_corrected adSLThrows envZero {} "ETH/USDT" "BUY" 1 2 (some 5) (realOrd 0) (realOrd 1)
     "limit rejected" rfl rfl rfl rfl (by norm_num [realOrd]) (by norm_num) rfl rfl⟩

/-- C4 (counterexample): with no credentials but a reachable public
ticker, the simulated market order fills at the live ticker price (12345),
not at the synthesized simulated price (1725 for this stream) — the fill
price is not "a simulated current market price". -/
theorem C4_counterexample :
    (createMarketOrder simOnlyAdapter envTicker {} "ETH/USDT" "buy" 2).1.price = 12345 ∧
    simPrice "ETH/USDT" (envTicker.rand 0) = 1725 ∧ (12345 : ℚ) ≠ 1725 := by
  have h1 : strHas "ETH/USDT" "BTC" = false := rfl
  have h2 : strHas "ETH/USDT" "ETH" = true := rfl
  norm_num [createMarketOrder, simMarketOrder, getMarketPrice, freshOrderId, simPrice,
    envTicker, simOnlyAdapter, h1, h2]

/-- C4 (amended): with no API credentials configured, order creation is
served by the simulated adapter: createMarketOrder returns a closed market
order, fully filled (filled = amount, remaining 0), priced at whatever
getMarketPrice reports (the live public ticker when reachable, a
synthesized per-asset price otherwise), with cost price*amount;
createLimitOrder returns an open limit order at the requested price with
filled 0 and remaining = amount, and no code path ever fills it. -/
theorem C4_corrected (A : RealAdapter) (env : ExeEnv) (st : ExeSt)
    (symbol side : String) (amount price : ℚ) (hK : A.hasKeys = false) :
    ((createMarketOrder A env st symbol side amount).1.status = "closed" ∧
     (createMarketOrder A env st symbol side amount).1.otype = "market" ∧
     (createMarketOrder A env st symbol side amount).1.filled = amount ∧
     (createMarketOrder A env st symbol side amount).1.remaining = 0 ∧
     (createMarketOrder A env st symbol side amount).1.amount = amount ∧
     (createMarketOrder A env st symbol side amount).1.price
       = (getMarketPrice env st symbol).1 ∧
     (createMarketOrder A env st symbol side amount).1.cost
       = (getMarketPrice env st symbol).1 * amount) ∧
    ((createLimitOrder A env st symbol side amount price).1.status = "open" ∧
     (createLimitOrder A env st symbol side amount price).1.otype = "limit" ∧
     (createLimitOrder A env st symbol side amount price).1.filled = 0 ∧
     (createLimitOrder A env st symbol side amount price).1.remaining = amount ∧
     (createLimitOrder A env st symbol side amount price).1.amount = amount ∧
     (createLimitOrder A env st symbol side amount price).1.price = price ∧
     (createLimitOrder A env st symbol side amount price).1.cost = price * amount) := by
  simp [createMarketOrder, simMarketOrder, createLimitOrder, simLimitOrder, hK]

/-- C4 (witness): the amended theorem at a concrete no-credential call. -/
theorem C4_witness :
    simOnlyAdapter.hasKeys = false ∧
    (((createMarketOrder simOnlyAdapter envZero {} "BTC/USDT" "buy" 3).1.status = "closed" ∧
      (createMarketOrder simOnlyAdapter envZero {} "BTC/USDT" "buy" 3).1.otype = "market" ∧
      (createMarketOrder simOnlyAdapter envZero {} "BTC/USDT" "buy" 3).1.filled = 3 ∧
      (createMarketOrder simOnlyAdapter envZero {} "BTC/USDT" "buy" 3).1.remaining = 0 ∧
      (createMarketOrder simOnlyAdapter envZero {} "BTC/USDT" "buy" 3).1.amount = 3 ∧
      (createMarketOrder simOnlyAdapter envZero {} "BTC/USDT" "buy" 3).1.price
        = (getMarketPrice envZero {} "BTC/USDT").1 ∧
      (createMarketOrder simOnlyAdapter envZero {} "BTC/USDT" "buy" 3).1.cost
        = (getMarketPrice envZero {} "BTC/USDT").1 * 3) ∧
     ((createLimitOrder simOnlyAdapter envZero {} "BTC/USDT" "buy" 3 30000).1.status = "open" ∧
      (createLimitOrder simOnlyAdapter envZero {} "BTC/USDT" "buy" 3 30000).1.otype = "limit" ∧
      (createLimitOrder simOnlyAdapter envZero {} "BTC/USDT" "buy" 3 30000).1.filled = 0 ∧
      (createLimitOrder simOnlyAdapter envZero {} "BTC/USDT" "buy" 3 30000).1.remaining = 3 ∧
      (createLimitOrder simOnlyAdapter envZero {} "BTC/USDT" "buy" 3 30000).1.amount = 3 ∧
      (createLimitOrder simOnlyAdapter envZero {} "BTC/USDT" "buy" 3 30000).1.price = 30000 ∧
      (createLimitOrder simOnlyAdapter envZero {} "BTC/USDT" "buy" 3 30000).1.cost
        = 30000 * 3)) :=
  ⟨rfl, C4_corrected simOnlyAdapter envZero {} "BTC/USDT" "buy" 3 30000 rfl⟩

/-- C5 (counterexample): the first candle of the client-side local
simulation for BTC/USDT with valid draws (change 0, open-perturbation 1/2,
low-perturbation 0) has low = 43413 but open = 43413 * 1999/2000 < low,
violating low ≤ min(open, close). -/
theorem C5_counterexample :
    (0 : ℚ) ≤ rndC5 1 ∧ rndC5 1 < 1 ∧
    ¬ candleInv (cliCandle "BTC/USDT" rndC5 (fun _ => 0) 0) := by
  refine ⟨by norm_num [rndC5], by norm_num [rndC5], ?_⟩
  have hb : cliBasePrice "BTC/USDT" = 43500 := rfl
  simp only [candleInv, cliCandle, cliPrice, hb, rndC5, not_and]
  norm_num

/-- C5 (amended): every candle emitted by the server-side per-market
simulation satisfies low ≤ min(open, close) and max(open, close) ≤ high;
candles from the client-side local simulation satisfy max(open, close) ≤
high and low ≤ close, but low ≤ open can fail because open and low are
independent downward perturbations of the close. -/
theorem C5_corrected :
    (∀ (m : String) (rnd : ℕ → ℚ) (bdry : ℕ → Bool) (tms : ℕ → ℚ) (n : ℕ),
      candleInv (srvCandle m rnd bdry tms n)) ∧
    (∀ (m : String) (rnd : ℕ → ℚ) (tms : ℕ → ℚ) (n : ℕ), validRnd rnd →
      max (cliCandle m rnd tms n).opn (cliCandle m rnd tms n).cls
          ≤ (cliCandle m rnd tms n).hi ∧
      (cliCandle m rnd tms n).lo ≤ (cliCandle m rnd tms n).cls) :=
  ⟨fun m rnd bdry tms n => srvCandle_inv m rnd bdry tms n,
   fun m rnd tms n hv => cliCandleHiLoBounds m rnd tms n hv⟩

/-- C5 (witness): the amended theorem at the all-zero draw stream. -/
theorem C5_witness :
    candleInv (srvCandle "BTC/USDT" (fun _ => 0) (fun _ => false) (fun _ => 0) 2) ∧
    validRnd (fun _ => 0) ∧
    (max (cliCandle "ETH/USDT" (fun _ => 0) (fun _ => 0) 1).opn
        (cliCandle "ETH/USDT" (fun _ => 0) (fun _ => 0) 1).cls
          ≤ (cliCandle "ETH/USDT" (fun _ => 0) (fun _ => 0) 1).hi ∧
     (cliCandle "ETH/USDT" (fun _ => 0) (fun _ => 0) 1).lo
          ≤ (cliCandle "ETH/USDT" (fun _ => 0) (fun _ => 0) 1).cls) :=
  ⟨C5_corrected.1 "BTC/USDT" (fun _ => 0) (fun _ => false) (fun _ => 0) 2,
   fun _ => by norm_num,
   C5_corrected.2 "ETH/USDT" (fun _ => 0) (fun _ => 0) 1 (fun _ => by norm_num)⟩

/-- C6 (counterexample): a client connects and subscribes twice in a row
to the same market before the upstream socket opens.  The first subscribe
starts one feed source (the Binance connection attempt); the repeated
subscribe from the same handle is not a no-op: it finds no registered
connection, re-enters connectToBinanceWebSocket with the budget already
consumed, and starts the simulation — a second feed source. -/
theorem C6_counterexample :
    countFeedStarts "BTC/USDT"
      (srvRun [SEvent.connect 0, SEvent.subscribe 0 "BTC/USDT"] srvInit).log = 1 ∧
    countFeedStarts "BTC/USDT"
      (srvRun [SEvent.connect 0, SEvent.subscribe 0 "BTC/USDT",
               SEvent.subscribe 0 "BTC/USDT"] srvInit).log = 2 := by
  constructor <;> rfl

/-- C6 (amended): feed-source starts are guarded by connection
registration, not by the subscriber count: (a) subscribing to a market
with a registered upstream connection starts nothing and changes no feed
state; (b) the first subscribe to a fresh market (no registration, no
prior attempts) starts exactly one upstream connection; (c) a subscribe to
a market with no registration but a spent attempt budget and a running
simulation starts no further feed source; (d) an unsubscribe that leaves
the market needed by no client closes its registered connection — exactly
one teardown. -/
theorem C6_corrected :
    (∀ (h : ℕ) (m : String) (s : SrvState) (c : ℕ), alGet s.conns m = some c →
      (subscribeToMarket h m s).conns = s.conns ∧ (subscribeToMarket h m s).sims = s.sims ∧
      (subscribeToMarket h m s).attempts = s.attempts ∧
      (subscribeToMarket h m s).log = s.log) ∧
    (∀ (h : ℕ) (m : String) (s : SrvState) (ms : List String),
      alGet s.clients h = some ms → alGet s.conns m = none → attemptsOf s m = 0 →
      (subscribeToMarket h m s).log = LogEvt.realStart m s.nextSock :: s.log ∧
      (subscribeToMarket h m s).sims = s.sims) ∧
    (∀ (h : ℕ) (m : String) (s : SrvState), alGet s.conns m = none →
      1 ≤ attemptsOf s m → m ∈ s.sims →
      (subscribeToMarket h m s).sims = s.sims ∧
      countFeedStarts m (subscribeToMarket h m s).log = countFeedStarts m s.log) ∧
    (∀ (h : ℕ) (m : String) (s : SrvState) (ms : List String) (c : ℕ),
      alGet s.clients h = some ms →
      hasSubscriber { s with clients := alSet s.clients h (eraseAllL ms m) } m = false →
      alGet s.conns m = some c →
      (unsubscribeFromMarket h m s).conns = alDel s.conns m ∧
      (unsubscribeFromMarket h m s).log = LogEvt.teardown m :: s.log) := by
  refine ⟨?_, ?_, ?_, ?_⟩
  · intro h m s c hc
    unfold subscribeToMarket
    match halGet : alGet s.clients h with
    | none => exact ⟨rfl, rfl, rfl, rfl⟩
    | some ms =>
      dsimp only
      rw [if_neg]
      · exact ⟨rfl, rfl, rfl, rfl⟩
      · simp [hc]
  · intro h m s ms hcl hc ha
    unfold subscribeToMarket
    rw [hcl]
    dsimp only
    rw [if_pos (by simp [hc])]
    unfold connectToBinanceWebSocket
    dsimp only
    rw [if_neg]
    · exact ⟨rfl, rfl⟩
    · unfold attemptsOf at ha
      rw [ha]
      simp [MAX_ATTEMPTS]
  · intro h m s hc ha hm
    unfold subscribeToMarket
    match halGet : alGet s.clients h with
    | none => exact ⟨rfl, rfl⟩
    | some ms =>
      dsimp only
      rw [if_pos (by simp [hc])]
      unfold connectToBinanceWebSocket
      dsimp only
      rw [if_pos]
      · unfold startSimulationForMarket
        rw [if_pos (List.elem_eq_true_of_mem hm)]
        exact ⟨rfl, rfl⟩
      · unfold attemptsOf at ha
        simpa [MAX_ATTEMPTS] using ha
  · intro h m s ms c hcl hno hc
    unfold unsubscribeFromMarket
    rw [hcl]
    dsimp only
    rw [if_pos]
    · exact ⟨rfl, rfl⟩
    · simp [hno, hc]

/-- C6 (witness): the four amended clauses at concrete states. -/
theorem C6_witness :
    ((subscribeToMarket 0 "X"
        { clients := [(0, ["X"])], conns := [("X", 5)], attempts := [("X", 0)],
          sims := [], nextSock := 1, log := [] }).conns = [("X", 5)] ∧
     (subscribeToMarket 0 "X"
        { clients := [(0, ["X"])], conns := [("X", 5)], attempts := [("X", 0)],
          sims := [], nextSock := 1, log := [] }).sims = [] ∧
     (subscribeToMarket 0 "X"
        { clients := [(0, ["X"])], conns := [("X", 5)], attempts := [("X", 0)],
          sims := [], nextSock := 1, log := [] }).attempts = [("X", 0)] ∧
     (subscribeToMarket 0 "X"
        { clients := [(0, ["X"])], conns := [("X", 5)], attempts := [("X", 0)],
          sims := [], nextSock := 1, log := [] }).log = []) ∧
    ((subscribeToMarket 0 "X"
        { clients := [(0, [])], conns := [], attempts := [],
          sims := [], nextSock := 0, log := [] }).log = [LogEvt.realStart "X" 0] ∧
     (subscribeToMarket 0 "X"
        { clients := [(0, [])], conns := [], attempts := [],
          sims := [], nextSock := 0, log := [] }).sims = []) ∧
    ((subscribeToMarket 0 "X"
        { clients := [(0, ["X"])], conns := [], attempts := [("X", 2)],
          sims := ["X"], nextSock := 1, log := [] }).sims = ["X"] ∧
     countFeedStarts "X" (subscribeToMarket 0 "X"
        { clients := [(0, ["X"])], conns := [], attempts := [("X", 2)],
          sims := ["X"], nextSock := 1, log := [] }).log = 0) ∧
    ((unsubscribeFromMarket 0 "X"
        { clients := [(0, ["X"])], conns := [("X", 4)], attempts := [("X", 1)],
          sims := [], nextSock := 1, log := [] }).conns = [] ∧
     (unsubscribeFromMarket 0 "X"
        { clients := [(0, ["X"])], conns := [("X", 4)], attempts := [("X", 1)],
          sims := [], nextSock := 1, log := [] }).log = [LogEvt.teardown "X"]) :=
  ⟨C6_corrected.1 0 "X" _ 5 rfl,
   C6_corrected.2.1 0 "X" _ [] rfl rfl rfl,
   C6_corrected.2.2.1 0 "X" _ rfl (by norm_num [attemptsOf, alGet]) (by simp),
   C6_corrected.2.2.2 0 "X" _ ["X"] 4 rfl (by rfl) rfl⟩

/-- C7 (counterexample): a client subscribes, the upstream socket opens and
is registered, then the client disconnects (subscriber count 1 → 0).  The
live upstream connection is not stopped: it remains registered while no
subscriber is left. -/
theorem C7_counterexample :
    alGet (srvRun [SEvent.connect 0, SEvent.subscribe 0 "BTC/USDT",
        SEvent.socketOpen "BTC/USDT" 7, SEvent.disconnect 0] srvInit).conns "BTC/USDT"
      = some 7 ∧
    hasSubscriber (srvRun [SEvent.connect 0, SEvent.subscribe 0 "BTC/USDT",
        SEvent.socketOpen "BTC/USDT" 7, SEvent.disconnect 0] srvInit) "BTC/USDT"
      = false := by
  constructor <;> rfl

/-- C7 (amended): a subscriber disconnect only drops the handle's
subscription entries — it closes no upstream connection and stops no
simulation (the leak); a running simulation does stop within one tick
interval on its own: once no subscriber is left, the next interval firing
delivers nothing and clears the interval, and a tick for a market with no
interval does nothing. -/
theorem C7_corrected :
    (∀ (h : ℕ) (s : SrvState),
      (onSubscriberDisconnect h s).conns = s.conns ∧
      (onSubscriberDisconnect h s).sims = s.sims ∧
      (onSubscriberDisconnect h s).attempts = s.attempts ∧
      (onSubscriberDisconnect h s).log = s.log) ∧
    (∀ (m : String) (s : SrvState), hasSubscriber s m = false → m ∈ s.sims →
      m ∉ (onSimTick m s).sims ∧
      countDelivers m (onSimTick m s).log = countDelivers m s.log) ∧
    (∀ (m : String) (s : SrvState), m ∉ s.sims → onSimTick m s = s) := by
  refine ⟨fun h s => ⟨rfl, rfl, rfl, rfl⟩, ?_, ?_⟩
  · intro m s hno hm
    have hE : (subscribersOf s m).isEmpty = true := by
      rw [subscribersOf_isEmpty, hno]
      rfl
    have hnil : subscribersOf s m = [] := List.isEmpty_iff.mp hE
    unfold onSimTick
    rw [if_pos (List.elem_eq_true_of_mem hm)]
    dsimp only
    rw [if_pos (by rw [hnil]; rfl)]
    constructor
    · dsimp only
      rw [mem_eraseAllL]
      simp
    · dsimp only
      rw [hnil]
      simp [countDelivers, List.filter]
  · intro m s hm
    unfold onSimTick
    rw [if_neg]
    simpa using hm

/-- C7 (witness): the amended clauses at concrete states. -/
theorem C7_witness :
    ((onSubscriberDisconnect 0
        { clients := [(0, ["X"])], conns := [("X", 7)], attempts := [("X", 0)],
          sims := [], nextSock := 1, log := [] }).conns = [("X", 7)] ∧
     (onSubscriberDisconnect 0
        { clients := [(0, ["X"])], conns := [("X", 7)], attempts := [("X", 0)],
          sims := [], nextSock := 1, log := [] }).sims = [] ∧
     (onSubscriberDisconnect 0
        { clients := [(0, ["X"])], conns := [("X", 7)], attempts := [("X", 0)],
          sims := [], nextSock := 1, log := [] }).attempts = [("X", 0)] ∧
     (onSubscriberDisconnect 0
        { clients := [(0, ["X"])], conns := [("X", 7)], attempts := [("X", 0)],
          sims := [], nextSock := 1, log := [] }).log = []) ∧
    ("X" ∉ (onSimTick "X"
        { clients := [], conns := [], attempts := [], sims := ["X"],
          nextSock := 0, log := [] }).sims ∧
     countDelivers "X" (onSimTick "X"
        { clients := [], conns := [], attempts := [], sims := ["X"],
          nextSock := 0, log := [] }).log = countDelivers "X" []) ∧
    onSimTick "X" srvInit = srvInit :=
  ⟨C7_corrected.1 0 _,
   C7_corrected.2.1 "X" _ rfl (by simp),
   C7_corrected.2.2 "X" srvInit (by simp [srvInit])⟩

/-- C8: a GeoBlocked (451) upstream error starts the simulation for the
market at once without touching the attempt counter or creating any new
upstream socket; and simulation is terminal while subscribers remain: the
only transition that removes a market from the running-simulation set is
its own tick firing with zero subscribers (teardown), never a switch back
to the real feed. -/
theorem C8_confirmed :
    (∀ (m msg : String) (s : SrvState), strHas msg "451" = true →
      (onSocketError m msg s).attempts = s.attempts ∧
      m ∈ (onSocketError m msg s).sims ∧
      countRealStarts m (onSocketError m msg s).log = countRealStarts m s.log) ∧
    (∀ (e : SEvent) (s : SrvState) (m : String), m ∈ s.sims →
      m ∉ (srvStepE e s).sims → e = SEvent.simTick m ∧ hasSubscriber s m = false) := by
  refine ⟨?_, fun e s m h1 h2 => sims_removal_characterization e s m h1 h2⟩
  intro m msg s h
  unfold onSocketError
  rw [if_pos h]
  exact ⟨attempts_startSim m s, sims_startSim_self m s, countRealStarts_startSim m m s⟩

/-- C8 (witness): a 451 error on a fresh market, and a simulation-ending
tick with zero subscribers. -/
theorem C8_witness :
    strHas "Unexpected server response: 451" "451" = true ∧
    ((onSocketError "X" "Unexpected server response: 451" srvInit).attempts
        = srvInit.attempts ∧
     "X" ∈ (onSocketError "X" "Unexpected server response: 451" srvInit).sims ∧
     countRealStarts "X" (onSocketError "X" "Unexpected server response: 451" srvInit).log
        = countRealStarts "X" srvInit.log) ∧
    (SEvent.simTick "X" = SEvent.simTick "X" ∧
     hasSubscriber
       { clients := [], conns := [], attempts := [], sims := ["X"],
         nextSock := 0, log := ([] : List LogEvt) } "X" = false) :=
  ⟨rfl, C8_confirmed.1 "X" "Unexpected server response: 451" srvInit rfl,
   C8_confirmed.2 (SEvent.simTick "X")
     { clients := [], conns := [], attempts := [], sims := ["X"],
       nextSock := 0, log := [] } "X" (by simp) (by decide)⟩

theorem cliStartSimulation_wsState (m : String) (s : CliState) :
    (cliStartSimulation m s).wsState = s.wsState := by
  unfold cliStartSimulation
  split <;> rfl

theorem cliStartSimulation_timer (m : String) (s : CliState) :
    (cliStartSimulation m s).timer = s.timer := by
  unfold cliStartSimulation
  split <;> rfl

theorem foldStartSim_wsState (ms : List String) (s : CliState) :
    (ms.foldl (fun acc m => cliStartSimulation m acc) s).wsState = s.wsState := by
  induction ms generalizing s with
  | nil => rfl
  | cons m rest ih => rw [List.foldl_cons, ih, cliStartSimulation_wsState]

theorem foldStartSim_timer (ms : List String) (s : CliState) :
    (ms.foldl (fun acc m => cliStartSimulation m acc) s).timer = s.timer := by
  induction ms generalizing s with
  | nil => rfl
  | cons m rest ih => rw [List.foldl_cons, ih, cliStartSimulation_timer]

/-- C9: reconnection is bounded with backoff before simulation fallback.
Client side: once the budget (1 attempt) is spent, attemptReconnect goes
to the simulated state and schedules no timer; below budget it schedules a
reconnect after reconnectDelay * 1.5 ^ (prior attempts) — exponential in
the attempt index and, the count being bounded, never above the base
delay — and increments the bounded counter.  Server side: a
connectToBinanceWebSocket call with the budget spent creates no socket and
switches to simulation; and along any run without a successful socket
open, at most MAX_ATTEMPTS upstream sockets are ever created per market. -/
theorem C9_confirmed :
    (∀ s : CliState, maxReconnectAttempts ≤ s.reconnectAttempts →
      (attemptReconnect s).wsState = WSState.simulated ∧ (attemptReconnect s).timer = none) ∧
    (∀ s : CliState, s.reconnectAttempts < maxReconnectAttempts →
      (attemptReconnect s).timer = some (reconnectDelay * (3/2) ^ s.reconnectAttempts) ∧
      (attemptReconnect s).reconnectAttempts = s.reconnectAttempts + 1 ∧
      (attemptReconnect s).reconnectAttempts ≤ maxReconnectAttempts ∧
      reconnectDelay * (3/2) ^ s.reconnectAttempts ≤ reconnectDelay) ∧
    (∀ (m : String) (s : SrvState), MAX_ATTEMPTS ≤ attemptsOf s m →
      countRealStarts m (connectToBinanceWebSocket m s).log = countRealStarts m s.log ∧
      m ∈ (connectToBinanceWebSocket m s).sims) ∧
    (∀ (m : String) (evs : List SEvent), (∀ sid, SEvent.socketOpen m sid ∉ evs) →
      countRealStarts m (srvRun evs srvInit).log ≤ MAX_ATTEMPTS) := by
  refine ⟨?_, ?_, ?_, ?_⟩
  · intro s h
    unfold attemptReconnect
    rw [if_pos h]
    unfold fallbackToSimulation
    dsimp only
    rw [foldStartSim_wsState, foldStartSim_timer]
    exact ⟨rfl, rfl⟩
  · intro s h
    unfold attemptReconnect
    rw [if_neg (not_le.mpr h)]
    have hz : s.reconnectAttempts = 0 := by
      simp only [maxReconnectAttempts] at h
      omega
    refine ⟨rfl, rfl, ?_, ?_⟩
    · simp [maxReconnectAttempts, hz]
    · rw [hz, pow_zero, mul_one]
  · intro m s h
    unfold attemptsOf at h
    unfold connectToBinanceWebSocket
    dsimp only
    rw [if_pos h]
    refine ⟨?_, sims_startSim_self m _⟩
    exact countRealStarts_startSim m m _
  · intro m evs hnot
    exact (inv_run m evs srvInit hnot ⟨by norm_num [countRealStarts, srvInit, MAX_ATTEMPTS],
      fun _ => rfl⟩).1

/-- C9 (witness): the four clauses at concrete inputs; in particular the
run of the C6 scenario (no socket ever opens) creates exactly one upstream
socket ≤ MAX_ATTEMPTS. -/
theorem C9_witness :
    ((attemptReconnect
        { socketLive := false, subs := [], simInts := [], wsState := WSState.disconnected,
          reconnectAttempts := 1, timer := none }).wsState = WSState.simulated ∧
     (attemptReconnect
        { socketLive := false, subs := [], simInts := [], wsState := WSState.disconnected,
          reconnectAttempts := 1, timer := none }).timer = none) ∧
    ((attemptReconnect
        { socketLive := false, subs := [], simInts := [], wsState := WSState.disconnected,
          reconnectAttempts := 0, timer := none }).timer
        = some (reconnectDelay * (3/2) ^ 0) ∧
     (attemptReconnect
        { socketLive := false, subs := [], simInts := [], wsState := WSState.disconnected,
          reconnectAttempts := 0, timer := none }).reconnectAttempts = 0 + 1 ∧
     (attemptReconnect
        { socketLive := false, subs := [], simInts := [], wsState := WSState.disconnected,
          reconnectAttempts := 0, timer := none }).reconnectAttempts
        ≤ maxReconnectAttempts ∧
     reconnectDelay * (3/2) ^ 0 ≤ reconnectDelay) ∧
    (countRealStarts "X" (connectToBinanceWebSocket "X"
        { clients := [(0, ["X"])], conns := [], attempts := [("X", 1)], sims := [],
          nextSock := 1, log := [LogEvt.realStart "X" 0] }).log
       = countRealStarts "X" [LogEvt.realStart "X" 0] ∧
     "X" ∈ (connectToBinanceWebSocket "X"
        { clients := [(0, ["X"])], conns := [], attempts := [("X", 1)], sims := [],
          nextSock := 1, log := [LogEvt.realStart "X" 0] }).sims) ∧
    countRealStarts "X" (srvRun [SEvent.connect 0, SEvent.subscribe 0 "X",
        SEvent.subscribe 0 "X"] srvInit).log ≤ MAX_ATTEMPTS :=
  ⟨C9_confirmed.1 _ (by decide),
   C9_confirmed.2.1 _ (by decide),
   C9_confirmed.2.2.1 "X" _ (by decide),
   C9_confirmed.2.2.2 "X" _ (fun sid => by simp)⟩

/-- C10: in the client WebSocketService a simulation interval exists only
for markets present in the subscriptions map with at least one callback;
subscribe, unsubscribe and close each preserve this invariant, and
unsubscribing the last callback of a market removes the market from the
map and clears its interval. -/
theorem C10_confirmed (m : String) (cb : ℕ) (s : CliState) (h : cliInvB s = true) :
    cliInvB (cliSubscribe m cb s) = true ∧
    cliInvB (cliUnsubscribe m cb s) = true ∧
    cliInvB (cliClose s) = true ∧
    (alGet s.subs m = some [cb] →
      alGet (cliUnsubscribe m cb s).subs m = none ∧
      m ∉ (cliUnsubscribe m cb s).simInts) :=
  ⟨cliInv_subscribe m cb s h, cliInv_unsubscribe m cb s h, cliInv_close s,
   fun hl => cliUnsubscribe_last m cb s hl⟩

/-- C10 (witness): the invariant clauses at a concrete simulated-mode
state holding one market with one callback. -/
theorem C10_witness :
    cliInvB
      { socketLive := false, subs := [("BTC/USDT", [3])], simInts := ["BTC/USDT"],
        wsState := WSState.simulated, reconnectAttempts := 1, timer := none } = true ∧
    (cliInvB (cliSubscribe "BTC/USDT" 4
      { socketLive := false, subs := [("BTC/USDT", [3])], simInts := ["BTC/USDT"],
        wsState := WSState.simulated, reconnectAttempts := 1, timer := none }) = true ∧
     cliInvB (cliUnsubscribe "BTC/USDT" 4
      { socketLive := false, subs := [("BTC/USDT", [3])], simInts := ["BTC/USDT"],
        wsState := WSState.simulated, reconnectAttempts := 1, timer := none }) = true ∧
     cliInvB (cliClose
      { socketLive := false, subs := [("BTC/USDT", [3])], simInts := ["BTC/USDT"],
        wsState := WSState.simulated, reconnectAttempts := 1, timer := none }) = true ∧
     (alGet
        (CliState.subs
          { socketLive := false, subs := [("BTC/USDT", [3])], simInts := ["BTC/USDT"],
            wsState := WSState.simulated, reconnectAttempts := 1, timer := none })
        "BTC/USDT" = some [3] →
      alGet (cliUnsubscribe "BTC/USDT" 3
        { socketLive := false, subs := [("BTC/USDT", [3])], simInts := ["BTC/USDT"],
          wsState := WSState.simulated, reconnectAttempts := 1, timer := none }).subs
        "BTC/USDT" = none ∧
      "BTC/USDT" ∉ (cliUnsubscribe "BTC/USDT" 3
        { socketLive := false, subs := [("BTC/USDT", [3])], simInts := ["BTC/USDT"],
          wsState := WSState.simulated, reconnectAttempts := 1, timer := none }).simInts)) :=
  ⟨rfl,
   (C10_confirmed "BTC/USDT" 4 _ (by rfl)).1,
   (C10_confirmed "BTC/USDT" 4 _ (by rfl)).2.1,
   (C10_confirmed "BTC/USDT" 4 _ (by rfl)).2.2.1,
   (C10_confirmed "BTC/USDT" 3 _ (by rfl)).2.2.2⟩
